import Mathlib

/-!
# Event mutation and change tracking

A shallow embedding of `server/routes/api.js` (the handlers of `POST /profiles`,
`POST /events`, `PUT /events/:id` and `GET /events/:id/logs`) together with the
Mongoose schemas of `server/models/Event.js`, `server/models/EventLog.js` and
`server/models/Profile.js`, and of the submit handler of the event form in
`client/src/pages/Dashboard.jsx`.

The database is an explicit `Store`; each handler is a function from the store
and the request to a response and the next store.  The JavaScript and Mongoose
library functions the handlers call (`new Date(s)`, the Date and ObjectId casts
of a schema path) are fields of a `Runtime`; `isoRuntime` is one concrete
runtime used for the worked examples.

Request values are modelled at the types the handlers document: `start`, `end`,
`title`, `description` and `timezone` are strings or absent, `profiles` is an
array of strings.
-/

namespace EventDashboard

/-! ## Library functions -/

/-- The text of a MongoDB ObjectId, as `_id.toString()` returns it. -/
abbrev ObjectId := String

/-- The library functions used by the routes.
* `dateParse s` is `new Date(s).getTime()`, with `none` for `NaN` (Invalid Date);
* `castDate s` is the result of Mongoose casting the string `s` on a required
  `Date` path, `none` when the cast or the `required` validator fails;
* `castObjectId s` is Mongoose casting `s` to an ObjectId, `none` on a
  `CastError`. -/
structure Runtime where
  dateParse : String → Option Int
  castDate : String → Option Int
  castObjectId : String → Option ObjectId

/-- What the environment contributes to one request: the clock reading used for
`createdAt`, the  `_id` generated for a new document, and whether the write of
the event document or of the log document fails in the storage layer. -/
structure Io where
  now : Int
  newId : ObjectId
  saveFails : Bool
  logFails : Bool
deriving DecidableEq, Repr

/-! ## Data model (server/models) -/

/-- A document of the `Profile` collection. -/
structure Profile where
  _id : ObjectId
  name : String
  timezone : String
deriving DecidableEq, Repr

/-- A document of the `Event` collection; `start` and `end_` are the time values
(milliseconds since the epoch) of the stored dates, `assignedTo` the stored
references; `description` is `none` when the document has no such field. -/
structure Event where
  _id : ObjectId
  title : String
  description : Option String
  start : Int
  end_ : Int
  timezone : String
  assignedTo : List ObjectId
deriving DecidableEq, Repr

/-- An event as `findById(id).populate('assignedTo')` returns it: the references
are replaced by the profile documents they resolve to, and a document stored
without a description is loaded with the default of the schema. -/
structure PopulatedEvent where
  _id : ObjectId
  title : String
  description : String
  start : Int
  end_ : Int
  timezone : String
  assignedTo : List Profile
deriving DecidableEq, Repr

/-- A value of a `Mixed` schema path, as far as the update route writes one. -/
inductive Mixed where
  | undefined
  | text (s : String)
  | date (t : Int)
  | ids (l : List String)
deriving DecidableEq, Repr

/-- One element of `EventLog.changes`. -/
structure ChangeEntry where
  field : String
  oldValue : Mixed
  newValue : Mixed
deriving DecidableEq, Repr

/-- A document of the `EventLog` collection. -/
structure EventLog where
  eventId : ObjectId
  message : String
  changes : List ChangeEntry
  createdAt : Int
deriving DecidableEq, Repr

/-- The three collections; each list is in insertion order. -/
structure Store where
  profiles : List Profile
  events : List Event
  logs : List EventLog
deriving DecidableEq, Repr

/-- The body of `POST /events` and `PUT /events/:id`. -/
structure EventBody where
  profiles : List String
  timezone : Option String
  start : Option String
  end_ : Option String
  title : Option String
  description : Option String
deriving DecidableEq, Repr

/-- What a handler sends back: `res.json(doc)`, an error object with a status and a
message written in the route, or the `catch` branch (status 500 with the message
of the thrown error). -/
inductive Response where
  | json (doc : Event)
  | error (status : Nat) (msg : String)
  | serverError
deriving DecidableEq, Repr

/-! ## Helpers of the routes -/

/-- The time value of `new Date(v)` for a body value `v`: `none` is `NaN`. An absent
value is `undefined`, for which the date is invalid. -/
def jsTime (R : Runtime) (v : Option String) : Option Int :=
  v.bind R.dateParse

/-- The test `new Date(start) >= new Date(end)` of the update route: a
comparison with `NaN` on either side is false. -/
def startNotBeforeEnd (R : Runtime) (start end_ : Option String) : Bool :=
  match jsTime R start, jsTime R end_ with
  | some a, some b => decide (b ≤ a)
  | _, _ => false

/-- A body value stored on a `Mixed` path. -/
def Mixed.ofBody : Option String → Mixed
  | none => Mixed.undefined
  | some s => Mixed.text s

/-- A body value inside a template literal. -/
def templateText : Option String → String
  | none => "undefined"
  | some s => s

/-- The default `Array.prototype.sort()` on an array of strings: ascending in the
lexicographic order of the characters. -/
def sortIds (l : List String) : List String :=
  l.insertionSort (fun a b => a.data ≤ b.data)

/-- The two arrays the update route fills, `changes` and `logMessages`. -/
structure Diff where
  changes : List ChangeEntry
  logMessages : List String
deriving DecidableEq, Repr

/-- The pair of pushes `changes.push(c); logMessages.push(m)`. -/
def Diff.push (d : Diff) (c : ChangeEntry) (m : String) : Diff :=
  ⟨d.changes ++ [c], d.logMessages ++ [m]⟩

/-- Lines 92 to 120 of the update route: the change entries and their messages,
computed from the loaded event and the request body. -/
def computeChanges (R : Runtime) (oldEvent : PopulatedEvent) (body : EventBody) : Diff :=
  let d0 : Diff := ⟨[], []⟩
  let d1 :=
    if some oldEvent.title ≠ body.title then
      d0.push ⟨"title", Mixed.text oldEvent.title, Mixed.ofBody body.title⟩
        ("Title changed from \"" ++ oldEvent.title ++ "\" to \"" ++ templateText body.title ++ "\"")
    else d0
  let d2 :=
    if jsTime R body.start ≠ some oldEvent.start then
      d1.push ⟨"start", Mixed.date oldEvent.start, Mixed.ofBody body.start⟩ "Start time updated"
    else d1
  let d3 :=
    if jsTime R body.end_ ≠ some oldEvent.end_ then
      d2.push ⟨"end", Mixed.date oldEvent.end_, Mixed.ofBody body.end_⟩ "End time updated"
    else d2
  let oldIds := sortIds (oldEvent.assignedTo.map (fun p => p._id))
  let newIds := sortIds body.profiles
  if oldIds ≠ newIds then
    d3.push ⟨"assignedTo", Mixed.ids oldIds, Mixed.ids newIds⟩ "Attendee list updated"
  else d3

/-! ## Persistence -/

/-- Resolution of an array of references by `populate`: each id is replaced by the
profile with that `_id`; an id with no such profile is left out of the result. -/
def populate (st : Store) (ids : List ObjectId) : List Profile :=
  ids.filterMap (fun i => st.profiles.find? (fun p => p._id == i))

/-- The call `Event.findById(oid).populate('assignedTo')`. -/
def findByIdPopulated (st : Store) (oid : ObjectId) : Option PopulatedEvent :=
  (st.events.find? (fun e => e._id == oid)).map fun e =>
    { _id := e._id, title := e.title, description := e.description.getD "", start := e.start,
      end_ := e.end_, timezone := e.timezone, assignedTo := populate st e.assignedTo }

/-- A required `String` path: absent and empty values fail validation. -/
def requiredString : Option String → Option String
  | none => none
  | some s => if s = "" then none else some s

/-- Casting and validation of the paths of `EventSchema` when a document with
these values is saved: `title`, `timezone`, `start` and `end` are required,
`description` is optional and stored as it is set (absent when it is set to
`undefined`), every element of `assignedTo` is cast to an ObjectId. The result
is `none` when `save()` rejects. -/
def validateEvent (R : Runtime) (_id : ObjectId) (title description : Option String)
    (assignedTo : List String) (timezone start end_ : Option String) : Option Event := do
  let title ← requiredString title
  let start ← start.bind R.castDate
  let end_ ← end_.bind R.castDate
  let timezone ← requiredString timezone
  let assignedTo ← assignedTo.mapM R.castObjectId
  pure { _id := _id, title := title, description := description, start := start,
         end_ := end_, timezone := timezone, assignedTo := assignedTo }

/-- Writing a saved document back over the stored one with the same `_id`. -/
def replaceEvent (events : List Event) (doc : Event) : List Event :=
  events.map (fun e => if e._id == doc._id then doc else e)

/-! ## The routes -/

/-- The handler `router.post('/events')`. The document is built by `new Event`, where
the schema default replaces an absent description by the empty string. -/
def createEvent (R : Runtime) (io : Io) (st : Store) (body : EventBody) : Response × Store :=
  let title := match body.title with
    | none => "New Event"
    | some t => if t = "" then "New Event" else t
  match validateEvent R io.newId (some title) (some (body.description.getD "")) body.profiles
      body.timezone body.start body.end_ with
  | none => (Response.serverError, st)
  | some newEvent =>
    if io.saveFails || st.events.any (fun e => e._id == newEvent._id) then
      (Response.serverError, st)
    else
      (Response.json newEvent, { st with events := st.events ++ [newEvent] })

/-- The handler `router.put('/events/:id')`. -/
def updateEvent (R : Runtime) (io : Io) (st : Store) (id : String) (body : EventBody) :
    Response × Store :=
  match R.castObjectId id with
  | none => (Response.serverError, st)
  | some oid =>
    match findByIdPopulated st oid with
    | none => (Response.error 404 "Event not found", st)
    | some oldEvent =>
      if startNotBeforeEnd R body.start body.end_ then
        (Response.error 400 "End time must be after Start time", st)
      else
        let d := computeChanges R oldEvent body
        match validateEvent R oldEvent._id body.title body.description (sortIds body.profiles)
            body.timezone body.start body.end_ with
        | none => (Response.serverError, st)
        | some saved =>
          if io.saveFails then (Response.serverError, st)
          else
            let st1 : Store := { st with events := replaceEvent st.events saved }
            if d.changes.length > 0 then
              if io.logFails then (Response.serverError, st1)
              else
                (Response.json saved,
                  { st1 with logs := st1.logs ++
                      [⟨oid, ", ".intercalate d.logMessages, d.changes, io.now⟩] })
            else (Response.json saved, st1)

/-! ## A concrete runtime

Dates in the simplified ISO 8601 format of ECMAScript,
`YYYY-MM-DDTHH:mm:ss.sssZ` (what `toISOString()` produces and the client
submits) or with a numeric offset `±HH:mm` in place of `Z`; ObjectIds as 24
hexadecimal digits. Every other string is rejected. -/

/-- The value of a decimal digit. -/
def digitVal (c : Char) : Option Nat :=
  if c.isDigit then some (c.toNat - 48) else none

/-- The number written by a sequence of decimal digits. -/
def decimal (cs : List Char) : Option Nat :=
  cs.foldlM (fun acc c => (digitVal c).map (fun d => acc * 10 + d)) 0

/-- Whether `y` is a leap year of the proleptic Gregorian calendar. -/
def isLeapYear (y : Nat) : Bool :=
  (y % 4 == 0 && y % 100 != 0) || y % 400 == 0

/-- The number of days of month `m` (1 to 12) of year `y`. -/
def daysInMonth (y m : Nat) : Nat :=
  if m == 2 then (if isLeapYear y then 29 else 28)
  else if m == 4 || m == 6 || m == 9 || m == 11 then 30
  else 31

/-- Days from 1970-01-01 to the given civil date. -/
def daysFromCivil (y m d : Nat) : Int :=
  let y' : Int := if m ≤ 2 then (y : Int) - 1 else y
  let era : Int := y' / 400
  let yoe : Int := y' - era * 400
  let mp : Int := ((m : Int) + 9) % 12
  let doy : Int := (153 * mp + 2) / 5 + (d : Int) - 1
  let doe : Int := yoe * 365 + yoe / 4 - yoe / 100 + doy
  era * 146097 + doe - 719468

/-- The offset in minutes written by the suffix of a date-time string. -/
def parseOffset : List Char → Option Int
  | ['Z'] => some 0
  | [sign, h1, h2, ':', m1, m2] => do
    let h ← decimal [h1, h2]
    let m ← decimal [m1, m2]
    if h ≤ 23 ∧ m ≤ 59 then
      if sign = '+' then some ((h * 60 + m : Nat) : Int)
      else if sign = '-' then some (-((h * 60 + m : Nat) : Int))
      else none
    else none
  | _ => none

/-- The time value of a string in the date-time string format, `none` for any
other string. -/
def isoParse (s : String) : Option Int :=
  let cs := s.data
  let sep := [cs.getD 4 ' ', cs.getD 7 ' ', cs.getD 10 ' ', cs.getD 13 ' ', cs.getD 16 ' ',
    cs.getD 19 ' ']
  if sep ≠ ['-', '-', 'T', ':', ':', '.'] then none else do
    let y ← decimal (cs.take 4)
    let mo ← decimal ((cs.drop 5).take 2)
    let d ← decimal ((cs.drop 8).take 2)
    let h ← decimal ((cs.drop 11).take 2)
    let mi ← decimal ((cs.drop 14).take 2)
    let sec ← decimal ((cs.drop 17).take 2)
    let ms ← decimal ((cs.drop 20).take 3)
    let off ← parseOffset (cs.drop 23)
    if 1 ≤ mo ∧ mo ≤ 12 ∧ 1 ≤ d ∧ d ≤ daysInMonth y mo ∧ h ≤ 23 ∧ mi ≤ 59 ∧ sec ≤ 59 then
      some ((((daysFromCivil y mo d * 24 + h) * 60 + mi - off) * 60 + sec) * 1000 + ms)
    else none

/-- The canonical text of a 24-digit hexadecimal string, `none` for any other
string. -/
def hexObjectId (s : String) : Option ObjectId :=
  let cs := s.data
  if cs.length = 24 ∧ cs.all (fun c => c.isDigit || ('a' ≤ c && c ≤ 'f') || ('A' ≤ c && c ≤ 'F'))
  then some (String.mk (cs.map Char.toLower))
  else none

/-- The runtime of the worked examples. -/
def isoRuntime : Runtime where
  dateParse := isoParse
  castDate := isoParse
  castObjectId := hexObjectId

/-- The states the two event routes can produce from a store without events. -/
inductive Reachable (R : Runtime) : Store → Prop where
  | init (profiles : List Profile) : Reachable R ⟨profiles, [], []⟩
  | create (io : Io) (body : EventBody) {st : Store} :
      Reachable R st → Reachable R (createEvent R io st body).2
  | update (io : Io) (id : String) (body : EventBody) {st : Store} :
      Reachable R st → Reachable R (updateEvent R io st id body).2

/-- The entries of a diff that are about one field. -/
def entriesOf (field : String) (d : Diff) : List ChangeEntry :=
  d.changes.filter (fun c => c.field == field)

/-- The entry pushed for the title. -/
def titleEntry (oldEvent : PopulatedEvent) (body : EventBody) : ChangeEntry :=
  ⟨"title", Mixed.text oldEvent.title, Mixed.ofBody body.title⟩

/-- The entry pushed for the start. -/
def startEntry (oldEvent : PopulatedEvent) (body : EventBody) : ChangeEntry :=
  ⟨"start", Mixed.date oldEvent.start, Mixed.ofBody body.start⟩

/-- The entry pushed for the end. -/
def endEntry (oldEvent : PopulatedEvent) (body : EventBody) : ChangeEntry :=
  ⟨"end", Mixed.date oldEvent.end_, Mixed.ofBody body.end_⟩

/-- The entry pushed for the assignment. -/
def assignedEntry (oldEvent : PopulatedEvent) (body : EventBody) : ChangeEntry :=
  ⟨"assignedTo", Mixed.ids (sortIds (oldEvent.assignedTo.map (fun p => p._id))),
    Mixed.ids (sortIds body.profiles)⟩

/-! ## Example data -/

/-- The id of the profile Alice. -/
def idA : ObjectId := "64b000000000000000000001"

/-- The id of the profile Bob. -/
def idB : ObjectId := "64b000000000000000000002"

/-- The id of the stored event. -/
def standupId : ObjectId := "64c000000000000000000001"

/-- A profile. -/
def alice : Profile := ⟨idA, "Alice", "UTC"⟩

/-- Another profile. -/
def bob : Profile := ⟨idB, "Bob", "UTC"⟩

/-- The event "Standup", 09:00 to 09:30 on 2024-01-01 in New York (14:00 to
14:30 UTC), assigned to Alice and Bob. -/
def standup : Event :=
  ⟨standupId, "Standup", some "", 1704117600000, 1704119400000, "America/New_York", [idA, idB]⟩

/-- A store holding the two profiles and the event. -/
def demoStore : Store := ⟨[alice, bob], [standup], []⟩

/-- The event as the update route loads it from `demoStore`. -/
def standupLoaded : PopulatedEvent :=
  ⟨standupId, "Standup", "", 1704117600000, 1704119400000, "America/New_York", [alice, bob]⟩

/-- A request environment without storage faults. -/
def demoIo : Io := ⟨1704200000000, "64c000000000000000000002", false, false⟩

/-- A body whose start and end are the same instant. -/
def emptyRangeBody : EventBody :=
  { profiles := [idA], timezone := some "UTC", start := some "2024-01-01T10:00:00.000Z",
    end_ := some "2024-01-01T10:00:00.000Z", title := some "Standup", description := some "" }

/-- The document `POST /events` stores for `emptyRangeBody`. -/
def emptyRangeEvent : Event :=
  ⟨"64c000000000000000000002", "Standup", some "", 1704103200000, 1704103200000, "UTC", [idA]⟩

/-- The stored interval resubmitted with the same instants written in UTC, the
timezone label changed and the attendees listed in the other order. -/
def sameInstantBody : EventBody :=
  { profiles := [idB, idA], timezone := some "UTC", start := some "2024-01-01T14:00:00.000Z",
    end_ := some "2024-01-01T14:30:00.000Z", title := some "Standup", description := some "" }

/-- The stored event moved to 10:00 to 10:30 New York time, nothing else changed. -/
def moveBody : EventBody :=
  { profiles := [idA, idB], timezone := some "America/New_York",
    start := some "2024-01-01T10:00:00.000-05:00", end_ := some "2024-01-01T10:30:00.000-05:00",
    title := some "Standup", description := some "" }

/-- The document stored after `moveBody`. -/
def movedStandup : Event :=
  ⟨standupId, "Standup", some "", 1704121200000, 1704123000000, "America/New_York", [idA, idB]⟩

/-- The audit record written for `moveBody`. -/
def movedLog : EventLog :=
  ⟨standupId, "Start time updated, End time updated",
    [⟨"start", Mixed.date 1704117600000, Mixed.text "2024-01-01T10:00:00.000-05:00"⟩,
     ⟨"end", Mixed.date 1704119400000, Mixed.text "2024-01-01T10:30:00.000-05:00"⟩],
    1704200000000⟩

/-- The stored event resubmitted unchanged except that Alice is listed twice. -/
def dupBody : EventBody :=
  { profiles := [idA, idB, idA], timezone := some "America/New_York",
    start := some "2024-01-01T14:00:00.000Z", end_ := some "2024-01-01T14:30:00.000Z",
    title := some "Standup", description := some "" }

/-- The id of a third profile. -/
def idC : ObjectId := "64b000000000000000000003"

/-- The loaded event with its attendees in the other order. -/
def standupLoadedSwapped : PopulatedEvent :=
  ⟨standupId, "Standup", "", 1704117600000, 1704119400000, "America/New_York", [bob, alice]⟩

/-- A body that replaces Alice by a third profile. -/
def reassignBody : EventBody :=
  { profiles := [idC, idB], timezone := some "America/New_York",
    start := some "2024-01-01T14:00:00.000Z", end_ := some "2024-01-01T14:30:00.000Z",
    title := some "Standup", description := some "" }

/-- The body `reassignBody` with the ids in the other order. -/
def reassignBodySwapped : EventBody :=
  { reassignBody with profiles := [idB, idC] }

/-! ## Further example data -/

/-- A well-formed id that no stored event has. -/
def unknownId : ObjectId := "64c000000000000000000009"

/-- A request to create a one-hour event under a title, assigned to Alice. -/
def planningBody : EventBody :=
  { profiles := [idA], timezone := some "UTC", start := some "2024-01-02T10:00:00.000Z",
    end_ := some "2024-01-02T11:00:00.000Z", title := some "Planning",
    description := some "Quarterly" }

/-- The document stored for `planningBody`. -/
def planningEvent : Event :=
  ⟨"64c000000000000000000002", "Planning", some "Quarterly", 1704189600000, 1704193200000,
    "UTC", [idA]⟩

/-- The request `planningBody` without a title. -/
def untitledBody : EventBody := { planningBody with title := none }

/-- The request `planningBody` with the empty string as title. -/
def emptyTitleBody : EventBody := { planningBody with title := some "" }

/-- The document stored for a request without a usable title. -/
def defaultTitleEvent : Event := { planningEvent with title := "New Event" }

/-- A request environment in which the write of the log document fails. -/
def logFailIo : Io := ⟨1704200000000, "64c000000000000000000002", false, true⟩

/-- A request environment in which the write of the event document fails. -/
def saveFailIo : Io := ⟨1704200000000, "64c000000000000000000002", true, false⟩

/-- The stored event resubmitted with a single attendee id that no profile has. -/
def ghostBody : EventBody :=
  { profiles := [idC], timezone := some "America/New_York",
    start := some "2024-01-01T14:00:00.000Z", end_ := some "2024-01-01T14:30:00.000Z",
    title := some "Standup", description := some "" }

/-- The stored event resubmitted with the id of Alice written in upper case. -/
def upperBody : EventBody :=
  { profiles := ["64B000000000000000000001", idB], timezone := some "America/New_York",
    start := some "2024-01-01T14:00:00.000Z", end_ := some "2024-01-01T14:30:00.000Z",
    title := some "Standup", description := some "" }

/-- The stored event resubmitted with a new description and the label UTC, the
instants written in UTC, title and attendees as stored. -/
def relabelBody : EventBody :=
  { profiles := [idA, idB], timezone := some "UTC", start := some "2024-01-01T14:00:00.000Z",
    end_ := some "2024-01-01T14:30:00.000Z", title := some "Standup",
    description := some "Daily sync" }

/-- The document stored after `relabelBody`. -/
def relabeledStandup : Event :=
  ⟨standupId, "Standup", some "Daily sync", 1704117600000, 1704119400000, "UTC", [idA, idB]⟩

/-- The document stored after `reassignBody`. -/
def reassignedStandup : Event :=
  ⟨standupId, "Standup", some "", 1704117600000, 1704119400000, "America/New_York",
    [idB, idC]⟩

/-- The audit record written for `reassignBody`. -/
def reassignedLog : EventLog :=
  ⟨standupId, "Attendee list updated",
    [⟨"assignedTo", Mixed.ids [idA, idB], Mixed.ids [idB, idC]⟩], 1704200000000⟩

/-- A second stored event, assigned to Bob. -/
def retro : Event :=
  ⟨"64c000000000000000000003", "Retro", some "", 1704200400000, 1704204000000, "UTC", [idB]⟩

/-- A store with two events. -/
def twoEventStore : Store := ⟨[alice, bob], [standup, retro], []⟩

/-- The stored event resubmitted under the label UTC and without a description. -/
def bareBody : EventBody :=
  { profiles := [idA, idB], timezone := some "UTC", start := some "2024-01-01T14:00:00.000Z",
    end_ := some "2024-01-01T14:30:00.000Z", title := some "Standup", description := none }

/-- The document stored after `bareBody`: it has no description. -/
def bareStandup : Event :=
  ⟨standupId, "Standup", none, 1704117600000, 1704119400000, "UTC", [idA, idB]⟩

/-! ## Profiles and the remaining routes -/

/-- The body of `POST /profiles`. -/
structure ProfileBody where
  name : String
  timezone : Option String
deriving DecidableEq, Repr

/-- What `POST /profiles` sends back: the saved profile, the object with the message
`msg` under a status written in the route, or the `catch` branch (status 500). -/
inductive ProfileResponse where
  | json (doc : Profile)
  | message (status : Nat) (msg : String)
  | serverError
deriving DecidableEq, Repr

/-- The handler `router.post('/profiles')`: a profile with the submitted name is
looked up first; otherwise the new document is saved, which the schema rejects
for an empty name; an absent timezone takes the default 'UTC'. -/
def createProfile (io : Io) (st : Store) (body : ProfileBody) : ProfileResponse × Store :=
  match st.profiles.find? (fun p => p.name == body.name) with
  | some _ => (ProfileResponse.message 400 "Profile exists", st)
  | none =>
    if body.name = "" then (ProfileResponse.serverError, st)
    else if io.saveFails || st.profiles.any (fun p => p._id == io.newId) then
      (ProfileResponse.serverError, st)
    else
      let profile : Profile := ⟨io.newId, body.name, body.timezone.getD "UTC"⟩
      (ProfileResponse.json profile, { st with profiles := st.profiles ++ [profile] })

/-- What `GET /events/:id/logs` sends back. -/
inductive LogsResponse where
  | json (logs : List EventLog)
  | serverError
deriving DecidableEq, Repr

/-- The sort of a query result by `createdAt: -1`: descending by `createdAt`; the
sort is taken to be stable, so records with the same `createdAt` stay in the
order in which the query yields them. -/
def sortNewestFirst (l : List EventLog) : List EventLog :=
  l.insertionSort (fun a b => b.createdAt ≤ a.createdAt)

/-- The handler `router.get('/events/:id/logs')`: the records whose `eventId` is the
id of the request, which `find` yields in the order of their insertion, sorted
by `createdAt` in descending order. -/
def getEventLogs (R : Runtime) (st : Store) (id : String) : LogsResponse :=
  match R.castObjectId id with
  | none => LogsResponse.serverError
  | some oid => LogsResponse.json (sortNewestFirst (st.logs.filter (fun l => l.eventId == oid)))

/-- The requests of the API. -/
inductive Request where
  | getProfiles
  | postProfile (body : ProfileBody)
  | getEvents (profileId : Option String)
  | postEvent (body : EventBody)
  | putEvent (id : String) (body : EventBody)
  | getEventLogs (id : String)
deriving DecidableEq, Repr

/-- The store after the handler of a request has run; the three `GET` handlers only
issue `find` queries. -/
def nextStore (R : Runtime) (io : Io) (st : Store) : Request → Store
  | Request.getProfiles => st
  | Request.postProfile body => (createProfile io st body).2
  | Request.getEvents _ => st
  | Request.postEvent body => (createEvent R io st body).2
  | Request.putEvent id body => (updateEvent R io st id body).2
  | Request.getEventLogs _ => st

/-- The states the API can produce from the empty store. -/
inductive ApiReachable (R : Runtime) : Store → Prop where
  | init : ApiReachable R ⟨[], [], []⟩
  | step (io : Io) (req : Request) {st : Store} :
      ApiReachable R st → ApiReachable R (nextStore R io st req)

/-- A request to create the profile Alice. -/
def aliceBody : ProfileBody := ⟨"Alice", none⟩

/-- Two audit records of the stored event created at the same time, and a later one. -/
def logFirst : EventLog :=
  ⟨standupId, "Start time updated",
    [⟨"start", Mixed.date 1704117600000, Mixed.text "2024-01-01T10:00:00.000-05:00"⟩],
    1704200000000⟩

/-- The second record created at that time. -/
def logSecond : EventLog :=
  ⟨standupId, "End time updated",
    [⟨"end", Mixed.date 1704119400000, Mixed.text "2024-01-01T10:30:00.000-05:00"⟩],
    1704200000000⟩

/-- A record of the same event created later. -/
def logLater : EventLog :=
  ⟨standupId, "Attendee list updated",
    [⟨"assignedTo", Mixed.ids [idA, idB], Mixed.ids [idB, idC]⟩], 1704200000500⟩

/-- A record of another event. -/
def logOther : EventLog :=
  ⟨unknownId, "Start time updated",
    [⟨"start", Mixed.date 1704200400000, Mixed.text "2024-01-02T14:00:00.000Z"⟩],
    1704200000200⟩

/-- A store whose audit log holds these records in the order of their insertion. -/
def logStore : Store := ⟨[alice, bob], [standup], [logFirst, logSecond, logOther, logLater]⟩

/-- The stored event resubmitted with a start that is no date-time. -/
def badDateBody : EventBody :=
  { profiles := [idA, idB], timezone := some "America/New_York", start := some "tomorrow",
    end_ := some "2024-01-01T14:30:00.000Z", title := some "Standup", description := some "" }

/-! ## The event form of the client (client/src/pages/Dashboard.jsx) -/

/-- The two dayjs expressions of `handleSubmit`.
* `tzToISOString s zone` is `dayjs.tz(s, zone).toISOString()`, `none` when the call
  throws;
* `isAfter a b` is `dayjs(a).isAfter(dayjs(b))`. -/
structure Dayjs where
  tzToISOString : String → String → Option String
  isAfter : String → String → Bool

/-- The state `eventForm` of the dashboard. -/
structure EventForm where
  title : String
  timezone : String
  startDate : String
  startTime : String
  endDate : String
  endTime : String
deriving DecidableEq, Repr

/-- The state `handleSubmit` reads: the form, the selected profile ids and the id of
the event being edited, if any. -/
structure FormState where
  eventForm : EventForm
  selectedProfiles : List String
  editingEventId : Option String
deriving DecidableEq, Repr

/-- What `handleSubmit` does: it shows an error notification and sends nothing, or it
sends a `PUT` for the edited event, or it sends a `POST`. -/
inductive SubmitOutcome where
  | notify (message : String)
  | put (id : String) (payload : EventBody)
  | post (payload : EventBody)
deriving DecidableEq, Repr

/-- The function `handleSubmit` up to the request it sends. An exception thrown
before the request is caught and shown as 'Error saving event'. -/
def handleSubmit (D : Dayjs) (s : FormState) : SubmitOutcome :=
  if s.eventForm.startDate = "" ∨ s.eventForm.endDate = "" then
    SubmitOutcome.notify "Please pick dates"
  else
    let startDateTime := s.eventForm.startDate ++ "T" ++ s.eventForm.startTime
    let endDateTime := s.eventForm.endDate ++ "T" ++ s.eventForm.endTime
    match D.tzToISOString startDateTime s.eventForm.timezone,
        D.tzToISOString endDateTime s.eventForm.timezone with
    | some startISO, some endISO =>
      if D.isAfter startISO endISO then
        SubmitOutcome.notify "End time must be after start time"
      else
        let payload : EventBody :=
          { profiles := s.selectedProfiles, timezone := some s.eventForm.timezone,
            start := some startISO, end_ := some endISO,
            title := some (if s.eventForm.title = "" then "New Event" else s.eventForm.title),
            description := some "" }
        match s.editingEventId with
        | some id => SubmitOutcome.put id payload
        | none => SubmitOutcome.post payload
    | _, _ => SubmitOutcome.notify "Error saving event"

/-- The dayjs expressions for the zone UTC: a local date-time `YYYY-MM-DDTHH:mm` in
UTC is the instant with that text, and instants are compared by their time
values. -/
def utcDayjs : Dayjs where
  tzToISOString := fun s zone =>
    if zone = "UTC" then (isoParse (s ++ ":00.000Z")).map (fun _ => s ++ ":00.000Z") else none
  isAfter := fun a b =>
    match isoParse a, isoParse b with
    | some x, some y => decide (y < x)
    | _, _ => false

/-- A new-event form whose start and end are the same date and time. -/
def sameTimeForm : FormState :=
  { eventForm := ⟨"Standup", "UTC", "2024-01-01", "09:00", "2024-01-01", "09:00"⟩,
    selectedProfiles := [idA], editingEventId := none }

/-! ## Events that refer to an id without a profile -/

/-- The id the example environment gives a new document. -/
def createdId : ObjectId := "64c000000000000000000002"

/-- A request to create an event assigned to an id that no profile has. -/
def ghostCreateBody : EventBody := { planningBody with profiles := [idC] }

/-- The document stored for `ghostCreateBody`. -/
def ghostEvent : Event :=
  ⟨createdId, "Planning", some "Quarterly", 1704189600000, 1704193200000, "UTC", [idC]⟩

/-- The store after `ghostCreateBody`. -/
def ghostStore : Store := ⟨[alice, bob], [ghostEvent], []⟩

/-- The event of `ghostStore` as the update route loads it. -/
def ghostLoaded : PopulatedEvent :=
  ⟨createdId, "Planning", "Quarterly", 1704189600000, 1704193200000, "UTC", []⟩

/-- The event of `ghostStore` resubmitted with no attendee. -/
def clearBody : EventBody := { planningBody with profiles := [] }

/-- A request to create an event assigned to Alice and to an id that no profile has. -/
def mixedCreateBody : EventBody := { planningBody with profiles := [idA, idC] }

/-- The document stored for `mixedCreateBody`. -/
def mixedEvent : Event :=
  ⟨createdId, "Planning", some "Quarterly", 1704189600000, 1704193200000, "UTC", [idA, idC]⟩

/-- The store after `mixedCreateBody`. -/
def mixedStore : Store := ⟨[alice, bob], [mixedEvent], []⟩

/-- The event of `mixedStore` as the update route loads it. -/
def mixedLoaded : PopulatedEvent :=
  ⟨createdId, "Planning", "Quarterly", 1704189600000, 1704193200000, "UTC", [alice]⟩

/-- The event of `mixedStore` resubmitted with its two ids in the other order. -/
def mixedReorderBody : EventBody := { planningBody with profiles := [idC, idA] }

/-- The event of `mixedStore` resubmitted with Bob added. -/
def mixedAddBody : EventBody := { planningBody with profiles := [idA, idB, idC] }

/-- The event of `mixedStore` resubmitted with its own id list, a new description and a
new timezone label. -/
def mixedRelabelBody : EventBody :=
  { planningBody with profiles := [idA, idC], timezone := some "America/New_York",
                      description := some "Yearly" }

/-- The document stored after `mixedRelabelBody`. -/
def mixedRelabeled : Event :=
  ⟨createdId, "Planning", some "Yearly", 1704189600000, 1704193200000, "America/New_York",
    [idA, idC]⟩

/-! ## A runtime with the cast of numeric strings -/

/-- The Date cast of a schema path on a string: a string of decimal digits whose
number is at least 275761 is taken as milliseconds since the epoch, every other
string goes through the date parser. -/
def millisCast (s : String) : Option Int :=
  match decimal s.data with
  | some n =>
    if 275761 ≤ n then (if n ≤ 8640000000000000 then some (n : Int) else none)
    else isoParse s
  | none => isoParse s

/-- The example runtime with this cast. -/
def millisRuntime : Runtime where
  dateParse := isoParse
  castDate := millisCast
  castObjectId := hexObjectId

/-- The stored event resubmitted with its start written as milliseconds. -/
def numericBody : EventBody :=
  { profiles := [idA, idB], timezone := some "America/New_York",
    start := some "1704117600000", end_ := some "2024-01-01T14:30:00.000Z",
    title := some "Standup", description := some "" }

/-! ## The summary as the specification words it -/

/-- The text a title value takes inside the summary; only a string or an absent
value is ever stored as a title value. -/
def Mixed.summaryText : Mixed → String
  | Mixed.undefined => "undefined"
  | Mixed.text s => s
  | Mixed.date _ => ""
  | Mixed.ids _ => ""

/-- The clause one change entry contributes to the summary, by its field: the
title clause quotes the old and the new title, the other three are fixed. -/
def clauseOf (c : ChangeEntry) : String :=
  if c.field = "title" then
    "Title changed from \"" ++ c.oldValue.summaryText ++ "\" to \"" ++ c.newValue.summaryText
      ++ "\""
  else if c.field = "start" then "Start time updated"
  else if c.field = "end" then "End time updated"
  else if c.field = "assignedTo" then "Attendee list updated"
  else ""

/-! ## Facts about sorting -/

instance newestFirst_total : IsTotal EventLog (fun a b => b.createdAt ≤ a.createdAt) :=
  ⟨fun a b => le_total b.createdAt a.createdAt⟩

instance newestFirst_trans : IsTrans EventLog (fun a b => b.createdAt ≤ a.createdAt) :=
  ⟨fun _ _ _ h₁ h₂ => le_trans h₂ h₁⟩

instance sortRel_total : IsTotal String (fun a b => a.data ≤ b.data) :=
  ⟨fun a b => le_total a.data b.data⟩

instance sortRel_trans : IsTrans String (fun a b => a.data ≤ b.data) :=
  ⟨fun _ _ _ h₁ h₂ => le_trans h₁ h₂⟩

instance sortRel_antisymm : IsAntisymm String (fun a b => a.data ≤ b.data) :=
  ⟨fun _ _ h₁ h₂ => String.ext (le_antisymm h₁ h₂)⟩

theorem sortIds_perm (l : List String) : (sortIds l).Perm l :=
  List.perm_insertionSort _ l

theorem sortIds_sorted (l : List String) :
    (sortIds l).Sorted (fun a b => a.data ≤ b.data) :=
  List.sorted_insertionSort _ l

theorem sortIds_sorted_le (l : List String) : (sortIds l).Sorted (fun a b => a ≤ b) := by
  have h := sortIds_sorted l
  exact h.imp (fun hab => String.le_iff_toList_le.mpr hab)

theorem sortIds_eq_iff (l₁ l₂ : List String) : sortIds l₁ = sortIds l₂ ↔ l₁.Perm l₂ := by
  constructor
  · intro h
    exact ((sortIds_perm l₁).symm.trans (h ▸ List.Perm.refl _)).trans (sortIds_perm l₂)
  · intro h
    exact List.eq_of_perm_of_sorted (((sortIds_perm l₁).trans h).trans (sortIds_perm l₂).symm)
      (sortIds_sorted l₁) (sortIds_sorted l₂)

/-! ## The shape of a diff -/

theorem computeChanges_changes (R : Runtime) (oldEvent : PopulatedEvent) (body : EventBody) :
    (computeChanges R oldEvent body).changes =
      (if some oldEvent.title ≠ body.title then [titleEntry oldEvent body] else []) ++
      (if jsTime R body.start ≠ some oldEvent.start then [startEntry oldEvent body] else []) ++
      (if jsTime R body.end_ ≠ some oldEvent.end_ then [endEntry oldEvent body] else []) ++
      (if sortIds (oldEvent.assignedTo.map (fun p => p._id)) ≠ sortIds body.profiles
        then [assignedEntry oldEvent body] else []) := by
  simp only [computeChanges, Diff.push, titleEntry, startEntry, endEntry, assignedEntry]
  split_ifs <;> simp

theorem mem_changes_iff (R : Runtime) (oldEvent : PopulatedEvent) (body : EventBody)
    (c : ChangeEntry) :
    c ∈ (computeChanges R oldEvent body).changes ↔
      (some oldEvent.title ≠ body.title ∧ c = titleEntry oldEvent body) ∨
      (jsTime R body.start ≠ some oldEvent.start ∧ c = startEntry oldEvent body) ∨
      (jsTime R body.end_ ≠ some oldEvent.end_ ∧ c = endEntry oldEvent body) ∨
      (sortIds (oldEvent.assignedTo.map (fun p => p._id)) ≠ sortIds body.profiles ∧
        c = assignedEntry oldEvent body) := by
  rw [computeChanges_changes]
  simp only [List.mem_append, or_assoc]
  split_ifs <;> simp_all

/-! ## Identity of the loaded and the saved document -/

theorem findByIdPopulated_id {st : Store} {oid : ObjectId} {oldEvent : PopulatedEvent}
    (h : findByIdPopulated st oid = some oldEvent) : oldEvent._id = oid := by
  unfold findByIdPopulated at h
  cases hf : st.events.find? (fun e => e._id == oid) with
  | none => simp [hf] at h
  | some e =>
    have he := List.find?_some hf
    simp only [hf, Option.map_some', Option.some.injEq] at h
    subst h
    simpa using he

theorem validateEvent_id {R : Runtime} {i : ObjectId} {title description : Option String}
    {assignedTo : List String} {timezone start end_ : Option String} {doc : Event}
    (h : validateEvent R i title description assignedTo timezone start end_ = some doc) :
    doc._id = i := by
  unfold validateEvent at h
  simp only [Option.bind_eq_bind, Option.pure_def, Option.bind_eq_some] at h
  obtain ⟨_, _, _, _, _, _, _, _, _, _, h⟩ := h
  cases h
  rfl

/-! ## Validation of the proposed interval -/

/-- C1: an update of an existing event whose proposed start and end are valid
instants with the end not after the start is answered with status 400 and the
message 'End time must be after Start time', and the store (events and audit log)
is returned unchanged, whatever the stored event holds. -/
theorem updateEvent_invalid_range (R : Runtime) (io : Io) (st : Store) (id : String)
    (body : EventBody) (oid : ObjectId) (oldEvent : PopulatedEvent) (a b : Int)
    (hid : R.castObjectId id = some oid)
    (hfind : findByIdPopulated st oid = some oldEvent)
    (hs : jsTime R body.start = some a) (he : jsTime R body.end_ = some b)
    (hab : b ≤ a) :
    updateEvent R io st id body =
      (Response.error 400 "End time must be after Start time", st) := by
  simp [updateEvent, hid, hfind, startNotBeforeEnd, hs, he, hab]

theorem updateEvent_invalid_range_witness :
    findByIdPopulated demoStore standupId = some standupLoaded ∧
    jsTime isoRuntime emptyRangeBody.start = some 1704103200000 ∧
    jsTime isoRuntime emptyRangeBody.end_ = some 1704103200000 ∧
    updateEvent isoRuntime demoIo demoStore standupId emptyRangeBody =
      (Response.error 400 "End time must be after Start time", demoStore) :=
  ⟨by decide, by decide, by decide,
    updateEvent_invalid_range isoRuntime demoIo demoStore standupId emptyRangeBody standupId
      standupLoaded 1704103200000 1704103200000 (by decide) (by decide) (by decide) (by decide)
      (by decide)⟩

/-- C2: the create route stores an event whose end equals its start and answers
with the stored document; no range error is raised. -/
theorem createEvent_accepts_empty_range :
    createEvent isoRuntime demoIo ⟨[alice], [], []⟩ emptyRangeBody =
      (Response.json emptyRangeEvent, ⟨[alice], [emptyRangeEvent], []⟩) := by
  decide

/-- C3: a state reachable from the empty store by one create request holds an
event whose start is not before its end. -/
theorem reachable_empty_range :
    ∃ st, Reachable isoRuntime st ∧ ∃ e ∈ st.events, ¬ e.start < e.end_ := by
  refine ⟨(createEvent isoRuntime demoIo ⟨[], [], []⟩ emptyRangeBody).2,
    Reachable.create demoIo emptyRangeBody (Reachable.init []), emptyRangeEvent, ?_, ?_⟩
  · decide
  · decide

/-! ## The audit record of an update -/

/-- C4: when an update succeeds, the audit log afterwards is the log before the
call if the list of change entries is empty, and otherwise the log before the
call followed by exactly one record, which carries the id of the updated event,
the whole ordered list of change entries and the messages joined by ', '. -/
theorem updateEvent_audit_record (R : Runtime) (io : Io) (st st' : Store) (id : String)
    (body : EventBody) (doc : Event)
    (h : updateEvent R io st id body = (Response.json doc, st')) :
    ∃ oid oldEvent, R.castObjectId id = some oid ∧ findByIdPopulated st oid = some oldEvent ∧
      doc._id = oid ∧
      st'.logs =
        if (computeChanges R oldEvent body).changes = [] then st.logs
        else st.logs ++
          [⟨doc._id, ", ".intercalate (computeChanges R oldEvent body).logMessages,
            (computeChanges R oldEvent body).changes, io.now⟩] := by
  unfold updateEvent at h
  cases hid : R.castObjectId id with
  | none => simp [hid] at h
  | some oid =>
    cases hfind : findByIdPopulated st oid with
    | none => simp [hid, hfind] at h
    | some oldEvent =>
      simp only [hid, hfind] at h
      have hold := findByIdPopulated_id hfind
      refine ⟨oid, oldEvent, rfl, hfind, ?_⟩
      cases h1 : startNotBeforeEnd R body.start body.end_ with
      | true => simp [h1] at h
      | false =>
        cases hv : validateEvent R oldEvent._id body.title body.description
            (sortIds body.profiles) body.timezone body.start body.end_ with
        | none => simp [h1, hv] at h
        | some saved =>
          have hsaved := validateEvent_id hv
          simp only [h1, hv, Bool.false_eq_true, if_false] at h
          by_cases h2 : io.saveFails = true
          · simp [h2] at h
          · rw [if_neg h2] at h
            by_cases h3 : (computeChanges R oldEvent body).changes.length > 0
            · rw [if_pos h3] at h
              by_cases h4 : io.logFails = true
              · simp [h4] at h
              · rw [if_neg h4] at h
                simp only [Prod.mk.injEq, Response.json.injEq] at h
                obtain ⟨hd, hs⟩ := h
                subst hd
                have hne : (computeChanges R oldEvent body).changes ≠ [] := by
                  intro he
                  simp [he] at h3
                refine ⟨hsaved.trans hold, ?_⟩
                rw [if_neg hne, ← hs, hsaved, hold]
            · rw [if_neg h3] at h
              simp only [Prod.mk.injEq, Response.json.injEq] at h
              obtain ⟨hd, hs⟩ := h
              subst hd
              have he : (computeChanges R oldEvent body).changes = [] := by
                simpa using h3
              refine ⟨hsaved.trans hold, ?_⟩
              rw [if_pos he, ← hs]

theorem updateEvent_audit_record_witness :
    updateEvent isoRuntime demoIo demoStore standupId moveBody =
        (Response.json movedStandup, ⟨[alice, bob], [movedStandup], [movedLog]⟩) ∧
      ∃ oid oldEvent, isoRuntime.castObjectId standupId = some oid ∧
        findByIdPopulated demoStore oid = some oldEvent ∧ movedStandup._id = oid ∧
        [movedLog] =
          if (computeChanges isoRuntime oldEvent moveBody).changes = [] then demoStore.logs
          else demoStore.logs ++
            [⟨movedStandup._id,
              ", ".intercalate (computeChanges isoRuntime oldEvent moveBody).logMessages,
              (computeChanges isoRuntime oldEvent moveBody).changes, demoIo.now⟩] :=
  ⟨by decide,
    updateEvent_audit_record isoRuntime demoIo demoStore ⟨[alice, bob], [movedStandup], [movedLog]⟩
      standupId moveBody movedStandup (by decide)⟩

/-! ## Which fields are reported as changed -/

/-- C5: the diff has an entry for the field 'title' exactly when the proposed
title is not the very string stored as the title. -/
theorem title_entry_iff (R : Runtime) (oldEvent : PopulatedEvent) (body : EventBody) :
    (∃ c ∈ (computeChanges R oldEvent body).changes, c.field = "title") ↔
      body.title ≠ some oldEvent.title := by
  constructor
  · rintro ⟨c, hc, hf⟩
    rw [mem_changes_iff] at hc
    rcases hc with ⟨h, _⟩ | ⟨_, rfl⟩ | ⟨_, rfl⟩ | ⟨_, rfl⟩
    · exact fun e => h e.symm
    · exact absurd hf (by simp [titleEntry, startEntry, endEntry, assignedEntry])
    · exact absurd hf (by simp [titleEntry, startEntry, endEntry, assignedEntry])
    · exact absurd hf (by simp [titleEntry, startEntry, endEntry, assignedEntry])
  · intro h
    exact ⟨titleEntry oldEvent body,
      (mem_changes_iff R oldEvent body _).mpr (Or.inl ⟨fun e => h e.symm, rfl⟩), rfl⟩

/-- C6: when the proposed start and end are valid instants `a` and `b`, the diff has
a 'start' entry exactly when `a` is not the stored start instant and an 'end'
entry exactly when `b` is not the stored end instant; only the instants enter the
test, not the text that denotes them. -/
theorem instant_entry_iff (R : Runtime) (oldEvent : PopulatedEvent) (body : EventBody)
    (a b : Int) (hs : jsTime R body.start = some a) (he : jsTime R body.end_ = some b) :
    ((∃ c ∈ (computeChanges R oldEvent body).changes, c.field = "start") ↔
        a ≠ oldEvent.start) ∧
      ((∃ c ∈ (computeChanges R oldEvent body).changes, c.field = "end") ↔
        b ≠ oldEvent.end_) := by
  refine ⟨⟨?_, ?_⟩, ⟨?_, ?_⟩⟩
  · rintro ⟨c, hc, hf⟩
    rw [mem_changes_iff] at hc
    rcases hc with ⟨_, rfl⟩ | ⟨h, _⟩ | ⟨_, rfl⟩ | ⟨_, rfl⟩
    · exact absurd hf (by simp [titleEntry, startEntry, endEntry, assignedEntry])
    · simpa [hs] using h
    · exact absurd hf (by simp [titleEntry, startEntry, endEntry, assignedEntry])
    · exact absurd hf (by simp [titleEntry, startEntry, endEntry, assignedEntry])
  · intro h
    exact ⟨startEntry oldEvent body,
      (mem_changes_iff R oldEvent body _).mpr (Or.inr (Or.inl ⟨by simpa [hs] using h, rfl⟩)), rfl⟩
  · rintro ⟨c, hc, hf⟩
    rw [mem_changes_iff] at hc
    rcases hc with ⟨_, rfl⟩ | ⟨_, rfl⟩ | ⟨h, _⟩ | ⟨_, rfl⟩
    · exact absurd hf (by simp [titleEntry, startEntry, endEntry, assignedEntry])
    · exact absurd hf (by simp [titleEntry, startEntry, endEntry, assignedEntry])
    · simpa [he] using h
    · exact absurd hf (by simp [titleEntry, startEntry, endEntry, assignedEntry])
  · intro h
    exact ⟨endEntry oldEvent body,
      (mem_changes_iff R oldEvent body _).mpr
        (Or.inr (Or.inr (Or.inl ⟨by simpa [he] using h, rfl⟩))), rfl⟩

theorem instant_entry_iff_witness :
    jsTime isoRuntime sameInstantBody.start = some 1704117600000 ∧
    jsTime isoRuntime sameInstantBody.end_ = some 1704119400000 ∧
    ((∃ c ∈ (computeChanges isoRuntime standupLoaded sameInstantBody).changes,
        c.field = "start") ↔ (1704117600000 : Int) ≠ standupLoaded.start) ∧
    ((∃ c ∈ (computeChanges isoRuntime standupLoaded sameInstantBody).changes,
        c.field = "end") ↔ (1704119400000 : Int) ≠ standupLoaded.end_) :=
  ⟨by decide, by decide,
    instant_entry_iff isoRuntime standupLoaded sameInstantBody 1704117600000 1704119400000
      (by decide) (by decide)⟩

/-! ## The assignment entry -/

theorem entriesOf_assignedTo (R : Runtime) (oldEvent : PopulatedEvent) (body : EventBody) :
    entriesOf "assignedTo" (computeChanges R oldEvent body) =
      if sortIds (oldEvent.assignedTo.map (fun p => p._id)) = sortIds body.profiles then []
      else [assignedEntry oldEvent body] := by
  unfold entriesOf
  rw [computeChanges_changes]
  simp only [List.filter_append]
  split_ifs <;> simp_all [titleEntry, startEntry, endEntry, assignedEntry]

/-- C7 (as the code has it): the 'assignedTo' entries of a diff are none when the
stored ids and the proposed ids sort to the same sequence, and otherwise exactly
one entry, whose old and new values are the two sorted sequences; the sorted
sequences agree exactly when one list is a rearrangement of the other (same ids,
each as often), each is ascending, and each is a rearrangement of its list. -/
theorem assignedTo_entries (R : Runtime) (oldEvent : PopulatedEvent) (body : EventBody) :
    (entriesOf "assignedTo" (computeChanges R oldEvent body) =
      if sortIds (oldEvent.assignedTo.map (fun p => p._id)) = sortIds body.profiles then []
      else [⟨"assignedTo", Mixed.ids (sortIds (oldEvent.assignedTo.map (fun p => p._id))),
              Mixed.ids (sortIds body.profiles)⟩]) ∧
    ((sortIds (oldEvent.assignedTo.map (fun p => p._id)) = sortIds body.profiles) ↔
      (oldEvent.assignedTo.map (fun p => p._id)).Perm body.profiles) ∧
    (sortIds (oldEvent.assignedTo.map (fun p => p._id))).Sorted (fun a b => a ≤ b) ∧
    (sortIds (oldEvent.assignedTo.map (fun p => p._id))).Perm
      (oldEvent.assignedTo.map (fun p => p._id)) ∧
    (sortIds body.profiles).Sorted (fun a b => a ≤ b) ∧
    (sortIds body.profiles).Perm body.profiles :=
  ⟨entriesOf_assignedTo R oldEvent body, sortIds_eq_iff _ _, sortIds_sorted_le _, sortIds_perm _,
    sortIds_sorted_le _, sortIds_perm _⟩

/-- C7, the claim as stated fails: the stored ids and the proposed ids form the same
set (Alice is merely listed twice), and the diff has an 'assignedTo' entry. -/
theorem assignedTo_same_set_flagged :
    (∀ x, x ∈ standupLoaded.assignedTo.map (fun p => p._id) ↔ x ∈ dupBody.profiles) ∧
    entriesOf "assignedTo" (computeChanges isoRuntime standupLoaded dupBody) =
      [⟨"assignedTo", Mixed.ids [idA, idB], Mixed.ids [idA, idA, idB]⟩] := by
  refine ⟨?_, by decide⟩
  intro x
  simp only [standupLoaded, dupBody, alice, bob, List.map_cons, List.map_nil, List.mem_cons,
    List.mem_singleton, List.not_mem_nil, or_false]
  tauto

/-- C8 (as the code has it): when the set of ids of the event as loaded differs from
the set of proposed ids,
the diff has exactly one 'assignedTo' entry, and the diff of any rearrangement of
the stored ids against any rearrangement of the proposed ids has that same single
entry (same field, same old value, same new value). -/
theorem assignedTo_entry_permutation_invariant (R : Runtime)
    (oldEvent oldEvent' : PopulatedEvent) (body body' : EventBody)
    (hchg : ¬ ∀ x, x ∈ oldEvent.assignedTo.map (fun p => p._id) ↔ x ∈ body.profiles)
    (hold : (oldEvent'.assignedTo.map (fun p => p._id)).Perm
      (oldEvent.assignedTo.map (fun p => p._id)))
    (hnew : body'.profiles.Perm body.profiles) :
    entriesOf "assignedTo" (computeChanges R oldEvent body) =
        [⟨"assignedTo", Mixed.ids (sortIds (oldEvent.assignedTo.map (fun p => p._id))),
          Mixed.ids (sortIds body.profiles)⟩] ∧
      entriesOf "assignedTo" (computeChanges R oldEvent' body') =
        entriesOf "assignedTo" (computeChanges R oldEvent body) := by
  have hne : sortIds (oldEvent.assignedTo.map (fun p => p._id)) ≠ sortIds body.profiles := by
    intro h
    exact hchg (fun x => ((sortIds_eq_iff _ _).mp h).mem_iff)
  have h1 : sortIds (oldEvent'.assignedTo.map (fun p => p._id)) =
      sortIds (oldEvent.assignedTo.map (fun p => p._id)) := (sortIds_eq_iff _ _).mpr hold
  have h2 : sortIds body'.profiles = sortIds body.profiles := (sortIds_eq_iff _ _).mpr hnew
  rw [entriesOf_assignedTo, entriesOf_assignedTo, if_neg hne, h1, h2, if_neg hne]
  simp [assignedEntry, h1, h2]

theorem assignedTo_entry_permutation_invariant_witness :
    entriesOf "assignedTo" (computeChanges isoRuntime standupLoaded reassignBody) =
        [⟨"assignedTo", Mixed.ids [idA, idB], Mixed.ids [idB, idC]⟩] ∧
      entriesOf "assignedTo" (computeChanges isoRuntime standupLoadedSwapped reassignBodySwapped) =
        [⟨"assignedTo", Mixed.ids [idA, idB], Mixed.ids [idB, idC]⟩] := by
  have h := assignedTo_entry_permutation_invariant isoRuntime standupLoaded standupLoadedSwapped
    reassignBody reassignBodySwapped
    (fun h => absurd ((h idA).mp (by decide)) (by decide))
    (List.Perm.swap _ _ _) (List.Perm.swap _ _ _)
  have e1 : sortIds (standupLoaded.assignedTo.map (fun p => p._id)) = [idA, idB] := by decide
  have e2 : sortIds reassignBody.profiles = [idB, idC] := by decide
  rw [e1, e2] at h
  exact ⟨h.1, h.2.trans h.1⟩

/-- C9 (as the code has it): when the proposed id list is a reordering of the id list
of the event as loaded (the stored references that resolve to a profile), no
entry of the diff has the field 'assignedTo'. -/
theorem reorder_no_assignedTo_entry (R : Runtime) (oldEvent : PopulatedEvent)
    (body : EventBody)
    (h : body.profiles.Perm (oldEvent.assignedTo.map (fun p => p._id))) :
    ∀ c ∈ (computeChanges R oldEvent body).changes, c.field ≠ "assignedTo" := by
  intro c hc
  rw [mem_changes_iff] at hc
  rcases hc with ⟨_, rfl⟩ | ⟨_, rfl⟩ | ⟨_, rfl⟩ | ⟨hne, _⟩
  · simp [titleEntry]
  · simp [startEntry]
  · simp [endEntry]
  · exact absurd ((sortIds_eq_iff _ _).mpr h.symm) hne

theorem reorder_no_assignedTo_entry_witness :
    sameInstantBody.profiles = [idB, idA] ∧
    standupLoaded.assignedTo.map (fun p => p._id) = [idA, idB] ∧
    ∀ c ∈ (computeChanges isoRuntime standupLoaded sameInstantBody).changes,
      c.field ≠ "assignedTo" :=
  ⟨rfl, rfl, reorder_no_assignedTo_entry isoRuntime standupLoaded sameInstantBody
    (List.Perm.swap _ _ _)⟩

/-! ## Updates that change nothing -/

theorem updateEvent_logs_of_no_changes (R : Runtime) (io : Io) (st : Store) (id : String)
    (body : EventBody) (oid : ObjectId) (oldEvent : PopulatedEvent)
    (hid : R.castObjectId id = some oid) (hfind : findByIdPopulated st oid = some oldEvent)
    (hd : (computeChanges R oldEvent body).changes = []) :
    (updateEvent R io st id body).2.logs = st.logs := by
  unfold updateEvent
  simp only [hid, hfind, hd, List.length_nil, gt_iff_lt, lt_self_iff_false, if_false]
  cases startNotBeforeEnd R body.start body.end_ with
  | true => simp
  | false =>
    cases validateEvent R oldEvent._id body.title body.description (sortIds body.profiles)
        body.timezone body.start body.end_ with
    | none => simp
    | some saved =>
      cases io.saveFails with
      | true => simp
      | false => simp

/-- C10 (as the code has it): when the proposed title is the stored title, the
proposed start and end denote the stored instants (whatever their text and
whatever timezone label is submitted) and the proposed id list is a rearrangement
of the ids of the loaded event (same ids, each as often), the update computes no
change entry and leaves the audit log as it was. -/
theorem updateEvent_no_change (R : Runtime) (io : Io) (st : Store) (id : String)
    (body : EventBody) (oid : ObjectId) (oldEvent : PopulatedEvent)
    (hid : R.castObjectId id = some oid) (hfind : findByIdPopulated st oid = some oldEvent)
    (ht : body.title = some oldEvent.title)
    (hs : jsTime R body.start = some oldEvent.start)
    (he : jsTime R body.end_ = some oldEvent.end_)
    (hp : body.profiles.Perm (oldEvent.assignedTo.map (fun p => p._id))) :
    (computeChanges R oldEvent body).changes = [] ∧
      (updateEvent R io st id body).2.logs = st.logs := by
  have hd : (computeChanges R oldEvent body).changes = [] := by
    rw [computeChanges_changes]
    simp [ht, hs, he, (sortIds_eq_iff _ _).mpr hp.symm]
  exact ⟨hd, updateEvent_logs_of_no_changes R io st id body oid oldEvent hid hfind hd⟩

theorem updateEvent_no_change_witness :
    findByIdPopulated demoStore standupId = some standupLoaded ∧
    standupLoaded.timezone = "America/New_York" ∧ sameInstantBody.timezone = some "UTC" ∧
    (computeChanges isoRuntime standupLoaded sameInstantBody).changes = [] ∧
      (updateEvent isoRuntime demoIo demoStore standupId sameInstantBody).2.logs =
        demoStore.logs :=
  ⟨by decide, rfl, rfl,
    updateEvent_no_change isoRuntime demoIo demoStore standupId sameInstantBody standupId
      standupLoaded (by decide) (by decide) rfl (by decide) (by decide) (List.Perm.swap _ _ _)⟩

/-- C10, the claim as stated fails: the proposed title, start instant and end instant
are the stored ones and the proposed ids form the same set as the stored ids
(Alice is listed twice), yet the update computes one change entry and appends an
audit record. -/
theorem updateEvent_same_set_logged :
    findByIdPopulated demoStore standupId = some standupLoaded ∧
    dupBody.title = some standupLoaded.title ∧
    jsTime isoRuntime dupBody.start = some standupLoaded.start ∧
    jsTime isoRuntime dupBody.end_ = some standupLoaded.end_ ∧
    (∀ x, x ∈ standupLoaded.assignedTo.map (fun p => p._id) ↔ x ∈ dupBody.profiles) ∧
    (computeChanges isoRuntime standupLoaded dupBody).changes =
      [⟨"assignedTo", Mixed.ids [idA, idB], Mixed.ids [idA, idA, idB]⟩] ∧
    (updateEvent isoRuntime demoIo demoStore standupId dupBody).2.logs =
      [⟨standupId, "Attendee list updated",
        [⟨"assignedTo", Mixed.ids [idA, idB], Mixed.ids [idA, idA, idB]⟩], 1704200000000⟩] := by
  refine ⟨by decide, by decide, by decide, by decide, ?_, by decide, by decide⟩
  intro x
  simp only [standupLoaded, dupBody, alice, bob, List.map_cons, List.map_nil, List.mem_cons,
    List.mem_singleton, List.not_mem_nil, or_false]
  tauto

/-! ## One successful step of the update route -/

theorem updateEvent_of_saved (R : Runtime) (io : Io) (st : Store) (id : String)
    (body : EventBody) (oid : ObjectId) (oldEvent : PopulatedEvent) (saved : Event)
    (hid : R.castObjectId id = some oid) (hfind : findByIdPopulated st oid = some oldEvent)
    (hr : startNotBeforeEnd R body.start body.end_ = false)
    (hv : validateEvent R oldEvent._id body.title body.description (sortIds body.profiles)
      body.timezone body.start body.end_ = some saved)
    (hs : io.saveFails = false) :
    updateEvent R io st id body =
      if (computeChanges R oldEvent body).changes.length > 0 then
        if io.logFails then
          (Response.serverError, { st with events := replaceEvent st.events saved })
        else
          (Response.json saved,
            { st with events := replaceEvent st.events saved,
                      logs := st.logs ++
                        [⟨oid, ", ".intercalate (computeChanges R oldEvent body).logMessages,
                          (computeChanges R oldEvent body).changes, io.now⟩] })
      else (Response.json saved, { st with events := replaceEvent st.events saved }) := by
  unfold updateEvent
  simp only [hid, hfind, hr, hv, hs, Bool.false_eq_true, if_false]

theorem updateEvent_json_inv (R : Runtime) (io : Io) (st st' : Store) (id : String)
    (body : EventBody) (doc : Event)
    (h : updateEvent R io st id body = (Response.json doc, st')) :
    ∃ oid oldEvent, R.castObjectId id = some oid ∧ findByIdPopulated st oid = some oldEvent ∧
      startNotBeforeEnd R body.start body.end_ = false ∧
      validateEvent R oldEvent._id body.title body.description (sortIds body.profiles)
        body.timezone body.start body.end_ = some doc ∧
      io.saveFails = false ∧ st'.profiles = st.profiles ∧
      st'.events = replaceEvent st.events doc := by
  cases hid : R.castObjectId id with
  | none => simp [updateEvent, hid] at h
  | some oid =>
    cases hfind : findByIdPopulated st oid with
    | none => simp [updateEvent, hid, hfind] at h
    | some oldEvent =>
      cases hr : startNotBeforeEnd R body.start body.end_ with
      | true => simp [updateEvent, hid, hfind, hr] at h
      | false =>
        cases hv : validateEvent R oldEvent._id body.title body.description
            (sortIds body.profiles) body.timezone body.start body.end_ with
        | none => simp [updateEvent, hid, hfind, hr, hv] at h
        | some saved =>
          cases hs : io.saveFails with
          | true => simp [updateEvent, hid, hfind, hr, hv, hs] at h
          | false =>
            rw [updateEvent_of_saved R io st id body oid oldEvent saved hid hfind hr hv hs] at h
            refine ⟨oid, oldEvent, rfl, hfind, rfl, ?_⟩
            split_ifs at h
            · simp at h
            · simp only [Prod.mk.injEq, Response.json.injEq] at h
              obtain ⟨hd, hst⟩ := h
              subst hd
              subst hst
              exact ⟨hv, rfl, rfl, rfl⟩
            · simp only [Prod.mk.injEq, Response.json.injEq] at h
              obtain ⟨hd, hst⟩ := h
              subst hd
              subst hst
              exact ⟨hv, rfl, rfl, rfl⟩

/-! ## Order of the entries and the summary -/

theorem computeChanges_logMessages (R : Runtime) (oldEvent : PopulatedEvent) (body : EventBody) :
    (computeChanges R oldEvent body).logMessages =
      (if some oldEvent.title ≠ body.title then
        ["Title changed from \"" ++ oldEvent.title ++ "\" to \"" ++ templateText body.title
          ++ "\""] else []) ++
      (if jsTime R body.start ≠ some oldEvent.start then ["Start time updated"] else []) ++
      (if jsTime R body.end_ ≠ some oldEvent.end_ then ["End time updated"] else []) ++
      (if sortIds (oldEvent.assignedTo.map (fun p => p._id)) ≠ sortIds body.profiles
        then ["Attendee list updated"] else []) := by
  simp only [computeChanges, Diff.push]
  split_ifs <;> simp

/-- C12: the field names of the change entries of a diff, in the order of the
entries, form a subsequence of title, start, end, assignedTo; hence no field
occurs twice and a diff has at most four entries. The diff is a function of the
loaded event and the request body. -/
theorem change_fields_sublist (R : Runtime) (oldEvent : PopulatedEvent) (body : EventBody) :
    ((computeChanges R oldEvent body).changes.map (fun c => c.field)).Sublist
        ["title", "start", "end", "assignedTo"] ∧
      ((computeChanges R oldEvent body).changes.map (fun c => c.field)).Nodup ∧
      (computeChanges R oldEvent body).changes.length ≤ 4 := by
  have hsub : ((computeChanges R oldEvent body).changes.map (fun c => c.field)).Sublist
      ["title", "start", "end", "assignedTo"] := by
    rw [computeChanges_changes]
    split_ifs <;> simp [titleEntry, startEntry, endEntry, assignedEntry]
  refine ⟨hsub, ?_, ?_⟩
  · exact hsub.nodup (by decide)
  · simpa using hsub.length_le

theorem summaryText_ofBody (t : Option String) :
    (Mixed.ofBody t).summaryText = templateText t := by
  cases t <;> rfl

theorem summaryText_text (s : String) : (Mixed.text s).summaryText = s := rfl

theorem logMessages_eq_map_clauseOf (R : Runtime) (oldEvent : PopulatedEvent)
    (body : EventBody) :
    (computeChanges R oldEvent body).logMessages =
      (computeChanges R oldEvent body).changes.map clauseOf := by
  rw [computeChanges_changes, computeChanges_logMessages]
  split_ifs <;>
    simp [clauseOf, titleEntry, startEntry, endEntry, assignedEntry, summaryText_ofBody,
      summaryText_text]

theorem updateEvent_logs_cases (R : Runtime) (io : Io) (st : Store) (id : String)
    (body : EventBody) :
    (updateEvent R io st id body).2.logs = st.logs ∨
      ∃ oid oldEvent, R.castObjectId id = some oid ∧ findByIdPopulated st oid = some oldEvent ∧
        (computeChanges R oldEvent body).changes ≠ [] ∧
        (updateEvent R io st id body).2.logs = st.logs ++
          [⟨oid, ", ".intercalate (computeChanges R oldEvent body).logMessages,
            (computeChanges R oldEvent body).changes, io.now⟩] := by
  cases hid : R.castObjectId id with
  | none => left; simp [updateEvent, hid]
  | some oid =>
    cases hfind : findByIdPopulated st oid with
    | none => left; simp [updateEvent, hid, hfind]
    | some oldEvent =>
      cases hr : startNotBeforeEnd R body.start body.end_ with
      | true => left; simp [updateEvent, hid, hfind, hr]
      | false =>
        cases hv : validateEvent R oldEvent._id body.title body.description
            (sortIds body.profiles) body.timezone body.start body.end_ with
        | none => left; simp [updateEvent, hid, hfind, hr, hv]
        | some saved =>
          cases hs : io.saveFails with
          | true => left; simp [updateEvent, hid, hfind, hr, hv, hs]
          | false =>
            rw [updateEvent_of_saved R io st id body oid oldEvent saved hid hfind hr hv hs]
            split_ifs with h1 h2
            · left; rfl
            · right
              refine ⟨oid, oldEvent, rfl, hfind, ?_, rfl⟩
              intro he
              simp [he] at h1
            · left; rfl

/-- C13: the messages of a diff are the clauses of its change entries, one for each
entry and in the order of the entries (which is title, start, end, assignedTo),
so the summary is these clauses joined by ', '; and every audit record that an
update appends carries as its message the clauses of its own entries joined by
', '. -/
theorem summary_is_joined_clauses (R : Runtime) (oldEvent : PopulatedEvent)
    (body : EventBody) :
    (computeChanges R oldEvent body).logMessages =
        (computeChanges R oldEvent body).changes.map clauseOf ∧
      (computeChanges R oldEvent body).logMessages.length =
        (computeChanges R oldEvent body).changes.length ∧
      ", ".intercalate (computeChanges R oldEvent body).logMessages =
        ", ".intercalate ((computeChanges R oldEvent body).changes.map clauseOf) ∧
      ∀ (io : Io) (st : Store) (id : String) (l : EventLog),
        l ∈ (updateEvent R io st id body).2.logs → l ∈ st.logs ∨
          l.message = ", ".intercalate (l.changes.map clauseOf) := by
  refine ⟨logMessages_eq_map_clauseOf R oldEvent body, ?_, ?_, ?_⟩
  · rw [logMessages_eq_map_clauseOf, List.length_map]
  · rw [logMessages_eq_map_clauseOf]
  · intro io st id l hl
    rcases updateEvent_logs_cases R io st id body with h | ⟨oid, old, _, _, _, h⟩
    · left
      rwa [h] at hl
    · rw [h, List.mem_append, List.mem_singleton] at hl
      rcases hl with hl | rfl
      · exact Or.inl hl
      · right
        simp only
        rw [logMessages_eq_map_clauseOf]

/-- C14: for a stored event whose title and attendees are resubmitted unchanged
while the proposed start and end are valid instants that both differ from the
stored ones (the interval 09:00 to 09:30 moved to 10:00 to 10:30 in the same
zone), the diff is exactly a 'start' entry followed by an 'end' entry, the
summary is 'Start time updated, End time updated', and the update, when the save
and the log write go through, appends exactly one audit record. -/
theorem updateEvent_moved_interval (R : Runtime) (io : Io) (st : Store) (id : String)
    (body : EventBody) (oid : ObjectId) (oldEvent : PopulatedEvent) (saved : Event)
    (a b : Int)
    (hid : R.castObjectId id = some oid) (hfind : findByIdPopulated st oid = some oldEvent)
    (ht : body.title = some oldEvent.title)
    (hp : body.profiles.Perm (oldEvent.assignedTo.map (fun p => p._id)))
    (hs : jsTime R body.start = some a) (he : jsTime R body.end_ = some b)
    (hsa : a ≠ oldEvent.start) (heb : b ≠ oldEvent.end_) (hab : a < b)
    (hv : validateEvent R oldEvent._id body.title body.description (sortIds body.profiles)
      body.timezone body.start body.end_ = some saved)
    (hsave : io.saveFails = false) (hlog : io.logFails = false) :
    (computeChanges R oldEvent body).changes =
        [⟨"start", Mixed.date oldEvent.start, Mixed.ofBody body.start⟩,
         ⟨"end", Mixed.date oldEvent.end_, Mixed.ofBody body.end_⟩] ∧
      ", ".intercalate (computeChanges R oldEvent body).logMessages =
        "Start time updated, End time updated" ∧
      updateEvent R io st id body =
        (Response.json saved,
          { st with events := replaceEvent st.events saved,
                    logs := st.logs ++
                      [⟨oid, "Start time updated, End time updated",
                        [⟨"start", Mixed.date oldEvent.start, Mixed.ofBody body.start⟩,
                         ⟨"end", Mixed.date oldEvent.end_, Mixed.ofBody body.end_⟩],
                        io.now⟩] }) := by
  have hc : (computeChanges R oldEvent body).changes =
      [⟨"start", Mixed.date oldEvent.start, Mixed.ofBody body.start⟩,
       ⟨"end", Mixed.date oldEvent.end_, Mixed.ofBody body.end_⟩] := by
    rw [computeChanges_changes]
    simp [ht, hs, he, hsa, heb, (sortIds_eq_iff _ _).mpr hp.symm, startEntry, endEntry]
  have hm : (computeChanges R oldEvent body).logMessages =
      ["Start time updated", "End time updated"] := by
    rw [computeChanges_logMessages]
    simp [ht, hs, he, hsa, heb, (sortIds_eq_iff _ _).mpr hp.symm]
  have hj : ", ".intercalate (computeChanges R oldEvent body).logMessages =
      "Start time updated, End time updated" := by
    rw [hm]
    decide
  have hr : startNotBeforeEnd R body.start body.end_ = false := by
    simp [startNotBeforeEnd, hs, he, hab]
  refine ⟨hc, hj, ?_⟩
  rw [updateEvent_of_saved R io st id body oid oldEvent saved hid hfind hr hv hsave, hj, hc, hlog]
  simp

theorem updateEvent_moved_interval_witness :
    findByIdPopulated demoStore standupId = some standupLoaded ∧
    (computeChanges isoRuntime standupLoaded moveBody).changes =
        [⟨"start", Mixed.date 1704117600000, Mixed.text "2024-01-01T10:00:00.000-05:00"⟩,
         ⟨"end", Mixed.date 1704119400000, Mixed.text "2024-01-01T10:30:00.000-05:00"⟩] ∧
      ", ".intercalate (computeChanges isoRuntime standupLoaded moveBody).logMessages =
        "Start time updated, End time updated" ∧
      updateEvent isoRuntime demoIo demoStore standupId moveBody =
        (Response.json movedStandup, ⟨[alice, bob], [movedStandup], [movedLog]⟩) :=
  ⟨by decide,
    updateEvent_moved_interval isoRuntime demoIo demoStore standupId moveBody standupId
      standupLoaded movedStandup 1704121200000 1704123000000 (by decide) (by decide) rfl
      (List.Perm.refl _) (by decide) (by decide) (by decide) (by decide) (by decide) (by decide)
      rfl rfl⟩

/-! ## Unknown and malformed ids -/

/-- C15 (as the code has it): for an id that casts to an ObjectId which no stored
event has, the update answers 404 'Event not found' whatever the body is, and the
store (events and audit log) is returned unchanged. -/
theorem updateEvent_not_found (R : Runtime) (io : Io) (st : Store) (id : String)
    (body : EventBody) (oid : ObjectId)
    (hid : R.castObjectId id = some oid)
    (hnone : ∀ e ∈ st.events, e._id ≠ oid) :
    updateEvent R io st id body = (Response.error 404 "Event not found", st) := by
  have hfind : findByIdPopulated st oid = none := by
    unfold findByIdPopulated
    rw [Option.map_eq_none', List.find?_eq_none]
    intro e he
    simpa using hnone e he
  simp [updateEvent, hid, hfind]

theorem updateEvent_not_found_witness :
    isoRuntime.castObjectId unknownId = some unknownId ∧
    updateEvent isoRuntime demoIo demoStore unknownId moveBody =
      (Response.error 404 "Event not found", demoStore) :=
  ⟨by decide,
    updateEvent_not_found isoRuntime demoIo demoStore unknownId moveBody unknownId (by decide)
      (by decide)⟩

/-- C15, the claim as stated fails: the id 'abc' resolves to no stored event, and the
update answers with the status 500 of the catch branch, not with 404. -/
theorem updateEvent_malformed_id :
    (∀ e ∈ demoStore.events, e._id ≠ "abc") ∧
    updateEvent isoRuntime demoIo demoStore "abc" moveBody = (Response.serverError, demoStore) ∧
    updateEvent isoRuntime demoIo demoStore "abc" moveBody ≠
      (Response.error 404 "Event not found", demoStore) := by
  refine ⟨by decide, by decide, by decide⟩

/-! ## Creation -/

theorem validateEvent_eq_some (R : Runtime) (i : ObjectId) (t z : String)
    (description : Option String) (profiles : List String) (start end_ : Option String)
    (a b : Int) (ids : List ObjectId)
    (ht : t ≠ "") (hz : z ≠ "") (hs : start.bind R.castDate = some a)
    (he : end_.bind R.castDate = some b) (hids : profiles.mapM R.castObjectId = some ids) :
    validateEvent R i (some t) description profiles (some z) start end_ =
      some ⟨i, t, description, a, b, z, ids⟩ := by
  simp only [validateEvent, requiredString, ht, hz, if_false, hs, he, hids, Option.bind_eq_bind,
    Option.some_bind, Option.pure_def]

theorem createEvent_logs (R : Runtime) (io : Io) (st : Store) (body : EventBody) :
    (createEvent R io st body).2.logs = st.logs := by
  unfold createEvent
  simp only
  split
  · rfl
  · split_ifs <;> rfl

/-- C16: a create request with a non-empty title and timezone, start and end that
the schema casts to dates, and ids that cast to ObjectIds (in particular every
such request with start before end) succeeds when the write goes through: the
response is the new document, the event collection grows by exactly this one
document, which holds the submitted fields, and the audit log is unchanged; no
create request, valid or not, changes the audit log. -/
theorem createEvent_valid (R : Runtime) (io : Io) (st : Store) (body : EventBody)
    (t z : String) (a b : Int) (ids : List ObjectId)
    (ht : body.title = some t) (ht' : t ≠ "")
    (hz : body.timezone = some z) (hz' : z ≠ "")
    (hs : body.start.bind R.castDate = some a) (he : body.end_.bind R.castDate = some b)
    (hids : body.profiles.mapM R.castObjectId = some ids)
    (hsave : io.saveFails = false) (hfresh : ∀ e ∈ st.events, e._id ≠ io.newId) :
    createEvent R io st body =
        (Response.json ⟨io.newId, t, some (body.description.getD ""), a, b, z, ids⟩,
          { st with events :=
              st.events ++ [⟨io.newId, t, some (body.description.getD ""), a, b, z, ids⟩] }) ∧
      (createEvent R io st body).2.logs = st.logs ∧
      ∀ (io' : Io) (st' : Store) (body' : EventBody),
        (createEvent R io' st' body').2.logs = st'.logs := by
  refine ⟨?_, createEvent_logs R io st body, fun io' st' body' => createEvent_logs R io' st' body'⟩
  have hany : st.events.any (fun e => e._id == io.newId) = false := by
    rw [List.any_eq_false]
    intro e he'
    simpa using hfresh e he'
  unfold createEvent
  simp only [ht, ht', if_false, hz]
  rw [validateEvent_eq_some R io.newId t z (some (body.description.getD "")) body.profiles
    body.start body.end_
    a b ids ht' hz' hs he hids]
  simp [hsave, hany]

theorem createEvent_valid_witness :
    createEvent isoRuntime demoIo ⟨[alice], [], []⟩ planningBody =
        (Response.json planningEvent, ⟨[alice], [planningEvent], []⟩) ∧
      (createEvent isoRuntime demoIo ⟨[alice], [], []⟩ planningBody).2.logs = [] ∧
      ∀ (io' : Io) (st' : Store) (body' : EventBody),
        (createEvent isoRuntime io' st' body').2.logs = st'.logs :=
  createEvent_valid isoRuntime demoIo ⟨[alice], [], []⟩ planningBody "Planning" "UTC"
    1704189600000 1704193200000 [idA] rfl (by decide) rfl (by decide) (by decide) (by decide)
    (by decide) rfl (by decide)

theorem requiredString_eq_some {o : Option String} {s : String}
    (h : requiredString o = some s) : o = some s ∧ s ≠ "" := by
  cases o with
  | none => simp [requiredString] at h
  | some t =>
    by_cases ht : t = ""
    · simp [requiredString, ht] at h
    · simp only [requiredString, ht, if_false, Option.some.injEq] at h
      subst h
      exact ⟨rfl, ht⟩

theorem validateEvent_title {R : Runtime} {i : ObjectId} {title description : Option String}
    {assignedTo : List String} {timezone start end_ : Option String} {doc : Event}
    (h : validateEvent R i title description assignedTo timezone start end_ = some doc) :
    title = some doc.title ∧ doc.title ≠ "" := by
  unfold validateEvent at h
  simp only [Option.bind_eq_bind, Option.pure_def, Option.bind_eq_some] at h
  obtain ⟨t, ht, _, _, _, _, _, _, _, _, h⟩ := h
  cases h
  exact requiredString_eq_some ht

theorem createEvent_cases (R : Runtime) (io : Io) (st : Store) (body : EventBody) :
    createEvent R io st body = (Response.serverError, st) ∨
      ∃ doc, doc.title ≠ "" ∧
        (body.title = some doc.title ∨
          ((body.title = none ∨ body.title = some "") ∧ doc.title = "New Event")) ∧
        createEvent R io st body =
          (Response.json doc, { st with events := st.events ++ [doc] }) := by
  unfold createEvent
  simp only
  split
  · exact Or.inl rfl
  · rename_i newEvent hv
    split_ifs
    · exact Or.inl rfl
    · right
      have ht := validateEvent_title hv
      refine ⟨newEvent, ht.2, ?_, rfl⟩
      cases hb : body.title with
      | none =>
        right
        simp only [hb, Option.some.injEq] at ht
        exact ⟨Or.inl rfl, ht.1.symm⟩
      | some t =>
        by_cases he : t = ""
        · right
          simp only [hb, he, if_true, Option.some.injEq] at ht
          exact ⟨Or.inr (by rw [he]), ht.1.symm⟩
        · left
          simp only [hb, he, if_false, Option.some.injEq] at ht
          rw [ht.1]

/-- C17 (as the code has it): a create request whose title is missing or the empty
string is handled exactly as the same request with the title 'New Event'; when it
succeeds, the stored document has the title 'New Event' and is appended to the
event collection. -/
theorem createEvent_default_title (R : Runtime) (io : Io) (st : Store) (body : EventBody)
    (h : body.title = none ∨ body.title = some "") :
    createEvent R io st body = createEvent R io st { body with title := some "New Event" } ∧
      ∀ doc st', createEvent R io st body = (Response.json doc, st') →
        doc.title = "New Event" ∧ st'.events = st.events ++ [doc] := by
  constructor
  · rcases h with h | h <;> simp [createEvent, h]
  · intro doc st' hc
    rcases createEvent_cases R io st body with hf | ⟨d, hne, ht, hd⟩
    · rw [hf] at hc
      simp at hc
    · rw [hd] at hc
      simp only [Prod.mk.injEq, Response.json.injEq] at hc
      obtain ⟨h1, h2⟩ := hc
      subst h1
      subst h2
      refine ⟨?_, rfl⟩
      rcases ht with ht | ⟨_, ht⟩
      · rcases h with h | h
        · rw [h] at ht
          simp at ht
        · rw [h] at ht
          simp only [Option.some.injEq] at ht
          exact absurd ht.symm hne
      · exact ht

theorem createEvent_default_title_witness :
    untitledBody.title = none ∧
    createEvent isoRuntime demoIo ⟨[alice], [], []⟩ untitledBody =
        createEvent isoRuntime demoIo ⟨[alice], [], []⟩
          { untitledBody with title := some "New Event" } ∧
      ∀ doc st', createEvent isoRuntime demoIo ⟨[alice], [], []⟩ untitledBody =
          (Response.json doc, st') →
        doc.title = "New Event" ∧ st'.events = [] ++ [doc] :=
  ⟨rfl, createEvent_default_title isoRuntime demoIo ⟨[alice], [], []⟩ untitledBody (Or.inl rfl)⟩

/-- C17, the claim as stated fails: a create request without a title, and one with
the empty string as title, both succeed and persist an event titled
'New Event'. -/
theorem createEvent_untitled_persists :
    untitledBody.title = none ∧ emptyTitleBody.title = some "" ∧
    createEvent isoRuntime demoIo ⟨[alice], [], []⟩ untitledBody =
      (Response.json defaultTitleEvent, ⟨[alice], [defaultTitleEvent], []⟩) ∧
    createEvent isoRuntime demoIo ⟨[alice], [], []⟩ emptyTitleBody =
      (Response.json defaultTitleEvent, ⟨[alice], [defaultTitleEvent], []⟩) := by
  refine ⟨rfl, rfl, by decide, by decide⟩

/-! ## The title of a stored event -/

theorem updateEvent_store_cases (R : Runtime) (io : Io) (st : Store) (id : String)
    (body : EventBody) :
    (updateEvent R io st id body).2 = st ∨
      ∃ oid oldEvent saved, R.castObjectId id = some oid ∧
        findByIdPopulated st oid = some oldEvent ∧
        startNotBeforeEnd R body.start body.end_ = false ∧
        validateEvent R oldEvent._id body.title body.description (sortIds body.profiles)
          body.timezone body.start body.end_ = some saved ∧
        io.saveFails = false ∧
        (updateEvent R io st id body).2.profiles = st.profiles ∧
        (updateEvent R io st id body).2.events = replaceEvent st.events saved := by
  cases hid : R.castObjectId id with
  | none => left; simp [updateEvent, hid]
  | some oid =>
    cases hfind : findByIdPopulated st oid with
    | none => left; simp [updateEvent, hid, hfind]
    | some oldEvent =>
      cases hr : startNotBeforeEnd R body.start body.end_ with
      | true => left; simp [updateEvent, hid, hfind, hr]
      | false =>
        cases hv : validateEvent R oldEvent._id body.title body.description
            (sortIds body.profiles) body.timezone body.start body.end_ with
        | none => left; simp [updateEvent, hid, hfind, hr, hv]
        | some saved =>
          cases hs : io.saveFails with
          | true => left; simp [updateEvent, hid, hfind, hr, hv, hs]
          | false =>
            right
            refine ⟨oid, oldEvent, saved, rfl, hfind, rfl, hv, rfl, ?_, ?_⟩
            · rw [updateEvent_of_saved R io st id body oid oldEvent saved hid hfind hr hv hs]
              split_ifs <;> rfl
            · rw [updateEvent_of_saved R io st id body oid oldEvent saved hid hfind hr hv hs]
              split_ifs <;> rfl

theorem mem_replaceEvent {events : List Event} {doc e : Event}
    (h : e ∈ replaceEvent events doc) : e = doc ∨ e ∈ events := by
  unfold replaceEvent at h
  rw [List.mem_map] at h
  obtain ⟨x, hx, hxe⟩ := h
  split_ifs at hxe
  · exact Or.inl hxe.symm
  · exact Or.inr (hxe ▸ hx)

/-- C18: in every state reachable from a store without events by create and update
requests, every stored event has a non-empty title; and in such a state an update
that proposes a missing or empty title returns the store unchanged. -/
theorem reachable_title_nonempty (R : Runtime) (st : Store) (h : Reachable R st) :
    (∀ e ∈ st.events, e.title ≠ "") ∧
      ∀ (io : Io) (id : String) (body : EventBody),
        (body.title = none ∨ body.title = some "") → (updateEvent R io st id body).2 = st := by
  constructor
  · induction h with
    | init profiles => simp
    | create io body _ ih =>
      rcases createEvent_cases R io _ body with hf | ⟨doc, hne, _, hd⟩
      · rw [hf]
        exact ih
      · rw [hd]
        intro e he
        simp only [List.mem_append, List.mem_singleton] at he
        rcases he with he | rfl
        · exact ih e he
        · exact hne
    | update io id body _ ih =>
      rcases updateEvent_store_cases R io _ id body with hf | ⟨_, _, saved, _, _, _, hv, _, _, hev⟩
      · rw [hf]
        exact ih
      · rw [hev]
        intro e he
        rcases mem_replaceEvent he with rfl | he
        · exact (validateEvent_title hv).2
        · exact ih e he
  · intro io id body hb
    rcases updateEvent_store_cases R io st id body with hf | ⟨_, _, saved, _, _, _, hv, _, _, _⟩
    · exact hf
    · have ht := validateEvent_title hv
      rcases hb with hb | hb
      · rw [hb] at ht
        simp at ht
      · rw [hb] at ht
        simp only [Option.some.injEq] at ht
        exact absurd ht.1.symm ht.2

theorem reachable_title_nonempty_witness :
    Reachable isoRuntime (createEvent isoRuntime demoIo ⟨[alice], [], []⟩ emptyTitleBody).2 ∧
    (createEvent isoRuntime demoIo ⟨[alice], [], []⟩ emptyTitleBody).2.events =
      [defaultTitleEvent] ∧
    (∀ e ∈ (createEvent isoRuntime demoIo ⟨[alice], [], []⟩ emptyTitleBody).2.events,
      e.title ≠ "") ∧
      ∀ (io : Io) (id : String) (body : EventBody),
        (body.title = none ∨ body.title = some "") →
          (updateEvent isoRuntime io
            (createEvent isoRuntime demoIo ⟨[alice], [], []⟩ emptyTitleBody).2 id body).2 =
            (createEvent isoRuntime demoIo ⟨[alice], [], []⟩ emptyTitleBody).2 :=
  ⟨Reachable.create demoIo emptyTitleBody (Reachable.init [alice]), by decide,
    reachable_title_nonempty isoRuntime _
      (Reachable.create demoIo emptyTitleBody (Reachable.init [alice]))⟩

/-! ## Failures of the two writes -/

/-- C19 (as the code has it): when the event document of an update with a non-empty
diff has been saved and the write of the audit record fails, the response is the
status 500 of the catch branch, the audit log is unchanged, and the event
collection holds the updated document: the save is not undone. -/
theorem updateEvent_log_failure (R : Runtime) (io : Io) (st : Store) (id : String)
    (body : EventBody) (oid : ObjectId) (oldEvent : PopulatedEvent) (saved : Event)
    (hid : R.castObjectId id = some oid) (hfind : findByIdPopulated st oid = some oldEvent)
    (hr : startNotBeforeEnd R body.start body.end_ = false)
    (hv : validateEvent R oldEvent._id body.title body.description (sortIds body.profiles)
      body.timezone body.start body.end_ = some saved)
    (hsave : io.saveFails = false)
    (hne : (computeChanges R oldEvent body).changes ≠ [])
    (hlog : io.logFails = true) :
    updateEvent R io st id body =
      (Response.serverError, { st with events := replaceEvent st.events saved }) := by
  rw [updateEvent_of_saved R io st id body oid oldEvent saved hid hfind hr hv hsave]
  have hpos : (computeChanges R oldEvent body).changes.length > 0 :=
    List.length_pos.mpr hne
  rw [if_pos hpos, if_pos hlog]

theorem updateEvent_log_failure_witness :
    (computeChanges isoRuntime standupLoaded moveBody).changes ≠ [] ∧
    updateEvent isoRuntime logFailIo demoStore standupId moveBody =
      (Response.serverError,
        { demoStore with events := replaceEvent demoStore.events movedStandup }) :=
  ⟨by decide,
    updateEvent_log_failure isoRuntime logFailIo demoStore standupId moveBody standupId
      standupLoaded movedStandup (by decide) (by decide) (by decide) (by decide) rfl (by decide)
      rfl⟩

/-- C19, the claim as stated fails: the update has a non-empty diff and the write of
its audit record fails; the response is an error, yet the stored event is the
updated one, not the one stored before the request. -/
theorem updateEvent_log_failure_not_atomic :
    (computeChanges isoRuntime standupLoaded moveBody).changes ≠ [] ∧
    updateEvent isoRuntime logFailIo demoStore standupId moveBody =
      (Response.serverError, ⟨[alice, bob], [movedStandup], []⟩) ∧
    demoStore.events = [standup] ∧ movedStandup ≠ standup := by
  refine ⟨by decide, by decide, rfl, by decide⟩

/-- C20: when the save of the event document of an update fails, be it that the
schema rejects the proposed values or that the write fails in the storage layer,
the response is not a success and the whole store, the audit log included, is
returned unchanged: no audit record is written. -/
theorem updateEvent_save_failure (R : Runtime) (io : Io) (st : Store) (id : String)
    (body : EventBody) (oid : ObjectId) (oldEvent : PopulatedEvent)
    (hid : R.castObjectId id = some oid) (hfind : findByIdPopulated st oid = some oldEvent)
    (hfail : validateEvent R oldEvent._id body.title body.description (sortIds body.profiles)
        body.timezone body.start body.end_ = none ∨ io.saveFails = true) :
    (updateEvent R io st id body).2 = st ∧
      (updateEvent R io st id body).2.logs = st.logs ∧
      ∀ doc, (updateEvent R io st id body).1 ≠ Response.json doc := by
  have key : updateEvent R io st id body = (Response.serverError, st) ∨
      updateEvent R io st id body =
        (Response.error 400 "End time must be after Start time", st) := by
    cases hr : startNotBeforeEnd R body.start body.end_ with
    | true => right; simp [updateEvent, hid, hfind, hr]
    | false =>
      left
      rcases hfail with hv | hs
      · simp [updateEvent, hid, hfind, hr, hv]
      · cases hv : validateEvent R oldEvent._id body.title body.description
            (sortIds body.profiles) body.timezone body.start body.end_ with
        | none => simp [updateEvent, hid, hfind, hr, hv]
        | some saved => simp [updateEvent, hid, hfind, hr, hv, hs]
  rcases key with h | h <;> rw [h] <;> simp

theorem updateEvent_save_failure_witness :
    saveFailIo.saveFails = true ∧
    (updateEvent isoRuntime saveFailIo demoStore standupId moveBody).2 = demoStore ∧
      (updateEvent isoRuntime saveFailIo demoStore standupId moveBody).2.logs = demoStore.logs ∧
      ∀ doc, (updateEvent isoRuntime saveFailIo demoStore standupId moveBody).1 ≠
        Response.json doc :=
  ⟨rfl,
    updateEvent_save_failure isoRuntime saveFailIo demoStore standupId moveBody standupId
      standupLoaded (by decide) (by decide) (Or.inr rfl)⟩

/-! ## Applying the same update twice -/

theorem find?_replaceEvent {events : List Event} {doc e : Event}
    (h : events.find? (fun x => x._id == doc._id) = some e) :
    (replaceEvent events doc).find? (fun x => x._id == doc._id) = some doc := by
  induction events with
  | nil => simp at h
  | cons x xs ih =>
    unfold replaceEvent
    rw [List.map_cons]
    by_cases hx : x._id = doc._id
    · simp [hx]
    · have hx' : (x._id == doc._id) = false := by simpa using hx
      rw [List.find?_cons, hx'] at h
      simp only [hx', Bool.false_eq_true, if_false]
      rw [List.find?_cons, hx']
      exact ih h

theorem replaceEvent_idem (events : List Event) (doc : Event) :
    replaceEvent (replaceEvent events doc) doc = replaceEvent events doc := by
  unfold replaceEvent
  rw [List.map_map]
  apply List.map_congr_left
  intro e _
  by_cases he : e._id = doc._id
  · simp [he]
  · simp [he]

theorem populate_map_id (st : Store) (l : List ObjectId)
    (h : ∀ i ∈ l, ∃ p ∈ st.profiles, p._id = i) :
    (populate st l).map (fun p => p._id) = l := by
  induction l with
  | nil => rfl
  | cons i is ih =>
    obtain ⟨p, hp, hpi⟩ := h i (List.mem_cons_self _ _)
    have hsome : (st.profiles.find? (fun q => q._id == i)).isSome := by
      rw [List.find?_isSome]
      exact ⟨p, hp, by simpa using hpi⟩
    obtain ⟨q, hq⟩ := Option.isSome_iff_exists.mp hsome
    have hqi : q._id = i := by simpa using List.find?_some hq
    have ih' := ih (fun j hj => h j (List.mem_cons_of_mem _ hj))
    unfold populate at ih' ⊢
    rw [List.filterMap_cons, hq, List.map_cons, ih', hqi]

theorem mapM_castObjectId_fixed (R : Runtime) (l : List String)
    (h : ∀ i ∈ l, R.castObjectId i = some i) : l.mapM R.castObjectId = some l := by
  induction l with
  | nil => rfl
  | cons i is ih =>
    rw [List.mapM_cons, h i (List.mem_cons_self _ _),
      ih (fun j hj => h j (List.mem_cons_of_mem _ hj))]
    rfl

theorem validateEvent_fields {R : Runtime} {i : ObjectId} {title description : Option String}
    {assignedTo : List String} {timezone start end_ : Option String} {doc : Event}
    (h : validateEvent R i title description assignedTo timezone start end_ = some doc) :
    start.bind R.castDate = some doc.start ∧ end_.bind R.castDate = some doc.end_ ∧
      assignedTo.mapM R.castObjectId = some doc.assignedTo := by
  unfold validateEvent at h
  simp only [Option.bind_eq_bind, Option.pure_def, Option.bind_eq_some] at h
  obtain ⟨_, _, a, ha, b, hb, _, _, ids, hids, h⟩ := h
  cases h
  exact ⟨by simpa [Option.bind_eq_some] using ha, by simpa [Option.bind_eq_some] using hb, hids⟩

theorem findByIdPopulated_replaceEvent (st st1 : Store) (oid : ObjectId)
    (oldEvent : PopulatedEvent) (doc : Event)
    (hfind : findByIdPopulated st oid = some oldEvent) (hdoc : doc._id = oid)
    (hev : st1.events = replaceEvent st.events doc) :
    findByIdPopulated st1 oid =
      some { _id := doc._id, title := doc.title, description := doc.description.getD "",
             start := doc.start, end_ := doc.end_, timezone := doc.timezone,
             assignedTo := populate st1 doc.assignedTo } := by
  unfold findByIdPopulated at hfind ⊢
  cases hf : st.events.find? (fun e => e._id == oid) with
  | none => simp [hf] at hfind
  | some e =>
    subst hdoc
    rw [hev, find?_replaceEvent hf]
    rfl

/-- C11 (as the code has it): when an update succeeds, the schema stores the proposed
start and end as the instants that `new Date` reads from them, and every proposed
id is the id text of a stored profile that the ObjectId cast leaves as it is,
then for the same request applied again to the resulting store the diff against
the newly loaded event is empty and the store, audit log included, is returned
as it was after the first application; the response repeats the saved document
unless the write fails. -/
theorem updateEvent_twice (R : Runtime) (io io' : Io) (st st1 : Store) (id : String)
    (body : EventBody) (doc : Event)
    (h1 : updateEvent R io st id body = (Response.json doc, st1))
    (hs : body.start.bind R.castDate = jsTime R body.start)
    (he : body.end_.bind R.castDate = jsTime R body.end_)
    (hids : ∀ i ∈ body.profiles, R.castObjectId i = some i ∧ ∃ p ∈ st.profiles, p._id = i) :
    ∃ oid oldEvent1, R.castObjectId id = some oid ∧
      findByIdPopulated st1 oid = some oldEvent1 ∧
      (computeChanges R oldEvent1 body).changes = [] ∧
      (updateEvent R io' st1 id body).2 = st1 ∧
      (updateEvent R io' st1 id body).2.logs = st1.logs ∧
      (io'.saveFails = false → updateEvent R io' st1 id body = (Response.json doc, st1)) := by
  obtain ⟨oid, oldEvent, hid, hfind, hr, hv, _, hprof, hev⟩ :=
    updateEvent_json_inv R io st st1 id body doc h1
  have hdoc : doc._id = oid := (validateEvent_id hv).trans (findByIdPopulated_id hfind)
  have hfind1 := findByIdPopulated_replaceEvent st st1 oid oldEvent doc hfind hdoc hev
  obtain ⟨hstart, hend, hmap⟩ := validateEvent_fields hv
  have htitle := (validateEvent_title hv).1
  have hmem : ∀ i ∈ sortIds body.profiles, i ∈ body.profiles :=
    fun i hi => (sortIds_perm body.profiles).subset hi
  have hassigned : doc.assignedTo = sortIds body.profiles := by
    rw [mapM_castObjectId_fixed R _ (fun i hi => (hids i (hmem i hi)).1)] at hmap
    exact (Option.some.inj hmap).symm
  have hpop : (populate st1 doc.assignedTo).map (fun p => p._id) = sortIds body.profiles := by
    rw [hassigned]
    apply populate_map_id
    intro i hi
    rw [hprof]
    exact (hids i (hmem i hi)).2
  have hchanges : (computeChanges R
      { _id := doc._id, title := doc.title, description := doc.description.getD "",
        start := doc.start, end_ := doc.end_, timezone := doc.timezone,
        assignedTo := populate st1 doc.assignedTo } body).changes = [] := by
    rw [computeChanges_changes]
    simp only [hpop, htitle, ← hs, ← he, hstart, hend,
      (sortIds_eq_iff _ _).mpr (sortIds_perm body.profiles)]
    simp
  have hv1 : validateEvent R doc._id body.title body.description (sortIds body.profiles)
      body.timezone body.start body.end_ = some doc := by
    rw [hdoc, ← findByIdPopulated_id hfind]
    exact hv
  have hst1 : ({ st1 with events := replaceEvent st1.events doc } : Store) = st1 := by
    rw [hev, replaceEvent_idem, ← hev]
  have hstep : io'.saveFails = false →
      updateEvent R io' st1 id body = (Response.json doc, st1) := by
    intro hsave
    rw [updateEvent_of_saved R io' st1 id body oid _ doc hid hfind1 hr hv1 hsave, hchanges]
    simp [hst1]
  have hstore : (updateEvent R io' st1 id body).2 = st1 := by
    cases hsave : io'.saveFails with
    | false => rw [hstep hsave]
    | true => simp [updateEvent, hid, hfind1, hr, hv1, hsave]
  exact ⟨oid, _, hid, hfind1, hchanges, hstore, by rw [hstore], hstep⟩

theorem updateEvent_twice_witness :
    updateEvent isoRuntime demoIo demoStore standupId moveBody =
        (Response.json movedStandup, ⟨[alice, bob], [movedStandup], [movedLog]⟩) ∧
    ∃ oid oldEvent1, isoRuntime.castObjectId standupId = some oid ∧
      findByIdPopulated ⟨[alice, bob], [movedStandup], [movedLog]⟩ oid = some oldEvent1 ∧
      (computeChanges isoRuntime oldEvent1 moveBody).changes = [] ∧
      (updateEvent isoRuntime demoIo ⟨[alice, bob], [movedStandup], [movedLog]⟩ standupId
        moveBody).2 = ⟨[alice, bob], [movedStandup], [movedLog]⟩ ∧
      (updateEvent isoRuntime demoIo ⟨[alice, bob], [movedStandup], [movedLog]⟩ standupId
        moveBody).2.logs = [movedLog] ∧
      (demoIo.saveFails = false →
        updateEvent isoRuntime demoIo ⟨[alice, bob], [movedStandup], [movedLog]⟩ standupId
          moveBody = (Response.json movedStandup, ⟨[alice, bob], [movedStandup], [movedLog]⟩)) :=
  ⟨by decide,
    updateEvent_twice isoRuntime demoIo demoIo demoStore ⟨[alice, bob], [movedStandup], [movedLog]⟩
      standupId moveBody movedStandup (by decide) (by decide) (by decide) (by decide)⟩

/-- C11, the claim as stated fails: an update that assigns the event to an id no
profile has, and an update that writes the id of Alice in upper case, each
succeed, and the same request applied a second time appends a second audit
record. -/
theorem updateEvent_twice_logs_again :
    (updateEvent isoRuntime demoIo demoStore standupId ghostBody).1 =
        Response.json ⟨standupId, "Standup", some "", 1704117600000, 1704119400000,
          "America/New_York", [idC]⟩ ∧
      (updateEvent isoRuntime demoIo demoStore standupId ghostBody).2.logs.length = 1 ∧
      (updateEvent isoRuntime demoIo
        (updateEvent isoRuntime demoIo demoStore standupId ghostBody).2 standupId
          ghostBody).2.logs.length = 2 ∧
      (updateEvent isoRuntime demoIo demoStore standupId upperBody).1 =
        Response.json standup ∧
      (updateEvent isoRuntime demoIo demoStore standupId upperBody).2.logs.length = 1 ∧
      (updateEvent isoRuntime demoIo
        (updateEvent isoRuntime demoIo demoStore standupId upperBody).2 standupId
          upperBody).2.logs.length = 2 := by
  refine ⟨by decide, by decide, by decide, by decide, by decide, by decide⟩

/-! ## What a successful update stores -/

theorem validateEvent_meta {R : Runtime} {i : ObjectId} {title description : Option String}
    {assignedTo : List String} {timezone start end_ : Option String} {doc : Event}
    (h : validateEvent R i title description assignedTo timezone start end_ = some doc) :
    doc.description = description ∧ timezone = some doc.timezone := by
  unfold validateEvent at h
  simp only [Option.bind_eq_bind, Option.pure_def, Option.bind_eq_some] at h
  obtain ⟨_, _, _, _, _, _, z, hz, _, _, h⟩ := h
  cases h
  exact ⟨rfl, (requiredString_eq_some hz).1⟩

/-- C26: after a successful update the persisted `assignedTo` is the proposed id list
in ascending sorted order, each id cast to an ObjectId (so it is the sorted list
itself when the ids are in canonical form), and every 'assignedTo' change entry
of the diff has the sorted proposed list as its new value; the sorted list is
ascending and a rearrangement of the submitted list. -/
theorem updateEvent_sorted_assignment (R : Runtime) (io : Io) (st st' : Store) (id : String)
    (body : EventBody) (doc : Event)
    (h : updateEvent R io st id body = (Response.json doc, st')) :
    (sortIds body.profiles).mapM R.castObjectId = some doc.assignedTo ∧
      ((∀ i ∈ body.profiles, R.castObjectId i = some i) →
        doc.assignedTo = sortIds body.profiles) ∧
      (sortIds body.profiles).Sorted (fun a b => a ≤ b) ∧
      (sortIds body.profiles).Perm body.profiles ∧
      (∃ oid oldEvent, R.castObjectId id = some oid ∧
        findByIdPopulated st oid = some oldEvent ∧
        ∀ c ∈ (computeChanges R oldEvent body).changes, c.field = "assignedTo" →
          c.newValue = Mixed.ids (sortIds body.profiles)) ∧
      st'.events = replaceEvent st.events doc := by
  obtain ⟨oid, oldEvent, hid, hfind, _, hv, _, _, hev⟩ :=
    updateEvent_json_inv R io st st' id body doc h
  obtain ⟨_, _, hmap⟩ := validateEvent_fields hv
  refine ⟨hmap, ?_, sortIds_sorted_le _, sortIds_perm _, ⟨oid, oldEvent, hid, hfind, ?_⟩, hev⟩
  · intro hfix
    have hfix' : ∀ i ∈ sortIds body.profiles, R.castObjectId i = some i :=
      fun i hi => hfix i ((sortIds_perm body.profiles).subset hi)
    rw [mapM_castObjectId_fixed R _ hfix'] at hmap
    exact (Option.some.inj hmap).symm
  · intro c hc hf
    rw [mem_changes_iff] at hc
    rcases hc with ⟨_, rfl⟩ | ⟨_, rfl⟩ | ⟨_, rfl⟩ | ⟨_, rfl⟩
    · simp [titleEntry] at hf
    · simp [startEntry] at hf
    · simp [endEntry] at hf
    · rfl

theorem updateEvent_sorted_assignment_witness :
    reassignBody.profiles = [idC, idB] ∧
    updateEvent isoRuntime demoIo demoStore standupId reassignBody =
      (Response.json reassignedStandup, ⟨[alice, bob], [reassignedStandup], [reassignedLog]⟩) ∧
    (sortIds reassignBody.profiles).mapM isoRuntime.castObjectId =
        some reassignedStandup.assignedTo ∧
      ((∀ i ∈ reassignBody.profiles, isoRuntime.castObjectId i = some i) →
        reassignedStandup.assignedTo = sortIds reassignBody.profiles) ∧
      (sortIds reassignBody.profiles).Sorted (fun a b => a ≤ b) ∧
      (sortIds reassignBody.profiles).Perm reassignBody.profiles ∧
      (∃ oid oldEvent, isoRuntime.castObjectId standupId = some oid ∧
        findByIdPopulated demoStore oid = some oldEvent ∧
        ∀ c ∈ (computeChanges isoRuntime oldEvent reassignBody).changes,
          c.field = "assignedTo" → c.newValue = Mixed.ids (sortIds reassignBody.profiles)) ∧
      ([reassignedStandup] : List Event) = replaceEvent demoStore.events reassignedStandup :=
  ⟨rfl, by decide,
    updateEvent_sorted_assignment isoRuntime demoIo demoStore
      ⟨[alice, bob], [reassignedStandup], [reassignedLog]⟩ standupId reassignBody
      reassignedStandup (by decide)⟩

/-- C27 (as the code has it): every change entry of a diff is of one of four kinds. A
'title' entry has the stored title as old value and the proposed title as new
value, and the two differ as strings; a 'start' (an 'end') entry has the stored
start (end) as old value and the proposed start (end) as new value, and
`new Date` does not read the proposed value as the stored instant; an
'assignedTo' entry has the sorted ids of the event as loaded as old value and
the sorted proposed ids as new value, and the two sorted sequences differ. -/
theorem change_entry_values (R : Runtime) (oldEvent : PopulatedEvent) (body : EventBody)
    (c : ChangeEntry) (hc : c ∈ (computeChanges R oldEvent body).changes) :
    (c.field = "title" ∧ c.oldValue = Mixed.text oldEvent.title ∧
        c.newValue = Mixed.ofBody body.title ∧ body.title ≠ some oldEvent.title) ∨
      (c.field = "start" ∧ c.oldValue = Mixed.date oldEvent.start ∧
        c.newValue = Mixed.ofBody body.start ∧ jsTime R body.start ≠ some oldEvent.start) ∨
      (c.field = "end" ∧ c.oldValue = Mixed.date oldEvent.end_ ∧
        c.newValue = Mixed.ofBody body.end_ ∧ jsTime R body.end_ ≠ some oldEvent.end_) ∨
      (c.field = "assignedTo" ∧
        c.oldValue = Mixed.ids (sortIds (oldEvent.assignedTo.map (fun p => p._id))) ∧
        c.newValue = Mixed.ids (sortIds body.profiles) ∧
        sortIds (oldEvent.assignedTo.map (fun p => p._id)) ≠ sortIds body.profiles) := by
  rw [mem_changes_iff] at hc
  rcases hc with ⟨h, rfl⟩ | ⟨h, rfl⟩ | ⟨h, rfl⟩ | ⟨h, rfl⟩
  · exact Or.inl ⟨rfl, rfl, rfl, fun e => h e.symm⟩
  · exact Or.inr (Or.inl ⟨rfl, rfl, rfl, h⟩)
  · exact Or.inr (Or.inr (Or.inl ⟨rfl, rfl, rfl, h⟩))
  · exact Or.inr (Or.inr (Or.inr ⟨rfl, rfl, rfl, h⟩))

theorem change_entry_values_witness :
    (⟨"start", Mixed.date 1704117600000, Mixed.text "2024-01-01T10:00:00.000-05:00"⟩ :
        ChangeEntry) ∈ (computeChanges isoRuntime standupLoaded moveBody).changes ∧
    (("start" = "title" ∧ Mixed.date 1704117600000 = Mixed.text standupLoaded.title ∧
        Mixed.text "2024-01-01T10:00:00.000-05:00" = Mixed.ofBody moveBody.title ∧
        moveBody.title ≠ some standupLoaded.title) ∨
      ("start" = "start" ∧ Mixed.date 1704117600000 = Mixed.date standupLoaded.start ∧
        Mixed.text "2024-01-01T10:00:00.000-05:00" = Mixed.ofBody moveBody.start ∧
        jsTime isoRuntime moveBody.start ≠ some standupLoaded.start) ∨
      ("start" = "end" ∧ Mixed.date 1704117600000 = Mixed.date standupLoaded.end_ ∧
        Mixed.text "2024-01-01T10:00:00.000-05:00" = Mixed.ofBody moveBody.end_ ∧
        jsTime isoRuntime moveBody.end_ ≠ some standupLoaded.end_) ∨
      ("start" = "assignedTo" ∧
        Mixed.date 1704117600000 =
          Mixed.ids (sortIds (standupLoaded.assignedTo.map (fun p => p._id))) ∧
        Mixed.text "2024-01-01T10:00:00.000-05:00" = Mixed.ids (sortIds moveBody.profiles) ∧
        sortIds (standupLoaded.assignedTo.map (fun p => p._id)) ≠ sortIds moveBody.profiles)) :=
  ⟨by decide,
    change_entry_values isoRuntime standupLoaded moveBody
      ⟨"start", Mixed.date 1704117600000, Mixed.text "2024-01-01T10:00:00.000-05:00"⟩
      (by decide)⟩

/-- C28 (as the code has it): when an update succeeds whose proposed title is the
stored title, whose start and end denote the stored instants and whose id list is
a rearrangement of the ids of the event as loaded, the stored document afterwards
carries the proposed description (none when none is proposed) and the proposed
timezone label, the diff is empty and the audit log is unchanged; and no change
entry of any diff has the field 'description' or 'timezone'. -/
theorem updateEvent_description_timezone (R : Runtime) (io : Io) (st st' : Store)
    (id : String) (body : EventBody) (oid : ObjectId) (oldEvent : PopulatedEvent) (doc : Event)
    (hid : R.castObjectId id = some oid) (hfind : findByIdPopulated st oid = some oldEvent)
    (ht : body.title = some oldEvent.title)
    (hs : jsTime R body.start = some oldEvent.start)
    (he : jsTime R body.end_ = some oldEvent.end_)
    (hp : body.profiles.Perm (oldEvent.assignedTo.map (fun p => p._id)))
    (h : updateEvent R io st id body = (Response.json doc, st')) :
    doc.description = body.description ∧ body.timezone = some doc.timezone ∧
      st'.events = replaceEvent st.events doc ∧
      (computeChanges R oldEvent body).changes = [] ∧ st'.logs = st.logs ∧
      ∀ (R' : Runtime) (oldEvent' : PopulatedEvent) (body' : EventBody),
        ∀ c ∈ (computeChanges R' oldEvent' body').changes,
          c.field ≠ "description" ∧ c.field ≠ "timezone" := by
  obtain ⟨oid', oldEvent', hid', hfind', _, hv, _, _, hev⟩ :=
    updateEvent_json_inv R io st st' id body doc h
  have hd : (computeChanges R oldEvent body).changes = [] := by
    rw [computeChanges_changes]
    simp [ht, hs, he, (sortIds_eq_iff _ _).mpr hp.symm]
  have hlogs := updateEvent_logs_of_no_changes R io st id body oid oldEvent hid hfind hd
  rw [h] at hlogs
  refine ⟨(validateEvent_meta hv).1, (validateEvent_meta hv).2, hev, hd, hlogs, ?_⟩
  intro R' oldEvent' body' c hc
  rw [mem_changes_iff] at hc
  rcases hc with ⟨_, rfl⟩ | ⟨_, rfl⟩ | ⟨_, rfl⟩ | ⟨_, rfl⟩ <;>
    simp [titleEntry, startEntry, endEntry, assignedEntry]

theorem updateEvent_description_timezone_witness :
    standup.description = some "" ∧ standup.timezone = "America/New_York" ∧
    updateEvent isoRuntime demoIo demoStore standupId relabelBody =
      (Response.json relabeledStandup, ⟨[alice, bob], [relabeledStandup], []⟩) ∧
    relabeledStandup.description = relabelBody.description ∧
      relabelBody.timezone = some relabeledStandup.timezone ∧
      ([relabeledStandup] : List Event) = replaceEvent demoStore.events relabeledStandup ∧
      (computeChanges isoRuntime standupLoaded relabelBody).changes = [] ∧
      ([] : List EventLog) = demoStore.logs ∧
      ∀ (R' : Runtime) (oldEvent' : PopulatedEvent) (body' : EventBody),
        ∀ c ∈ (computeChanges R' oldEvent' body').changes,
          c.field ≠ "description" ∧ c.field ≠ "timezone" :=
  ⟨rfl, rfl, by decide,
    updateEvent_description_timezone isoRuntime demoIo demoStore
      ⟨[alice, bob], [relabeledStandup], []⟩ standupId relabelBody standupId standupLoaded
      relabeledStandup (by decide) (by decide) rfl (by decide) (by decide) (List.Perm.refl _)
      (by decide)⟩

/-- C29: after a successful update the stored document has the id the request named,
the proposed title, the proposed description (no description when none is
proposed) and the proposed timezone, the dates the schema casts the proposed
start and end to, and the sorted proposed ids cast to ObjectIds; the event collection is the former one
with this document in place of the event of that id and every other event as it
was, and the profiles are unchanged. -/
theorem updateEvent_frame (R : Runtime) (io : Io) (st st' : Store) (id : String)
    (body : EventBody) (doc : Event)
    (h : updateEvent R io st id body = (Response.json doc, st')) :
    ∃ oid, R.castObjectId id = some oid ∧ doc._id = oid ∧
      body.title = some doc.title ∧ doc.description = body.description ∧
      body.timezone = some doc.timezone ∧
      body.start.bind R.castDate = some doc.start ∧
      body.end_.bind R.castDate = some doc.end_ ∧
      (sortIds body.profiles).mapM R.castObjectId = some doc.assignedTo ∧
      st'.events = st.events.map (fun e => if e._id = oid then doc else e) ∧
      st'.events.find? (fun e => e._id == oid) = some doc ∧
      (∀ e ∈ st.events, e._id ≠ oid → e ∈ st'.events) ∧
      (∀ e ∈ st'.events, e = doc ∨ (e ∈ st.events ∧ e._id ≠ oid)) ∧
      st'.profiles = st.profiles := by
  obtain ⟨oid, oldEvent, hid, hfind, _, hv, _, hprof, hev⟩ :=
    updateEvent_json_inv R io st st' id body doc h
  have hdoc : doc._id = oid := (validateEvent_id hv).trans (findByIdPopulated_id hfind)
  obtain ⟨hstart, hend, hmap⟩ := validateEvent_fields hv
  have hmapeq : st'.events = st.events.map (fun e => if e._id = oid then doc else e) := by
    rw [hev]
    unfold replaceEvent
    apply List.map_congr_left
    intro e _
    simp [hdoc]
  have hfound : st'.events.find? (fun e => e._id == oid) = some doc := by
    have hf := findByIdPopulated_replaceEvent st st' oid oldEvent doc hfind hdoc hev
    unfold findByIdPopulated at hf
    cases hq : st'.events.find? (fun e => e._id == oid) with
    | none => simp [hq] at hf
    | some e =>
      have he : e ∈ st'.events := List.mem_of_find?_eq_some hq
      have heid : e._id = oid := by simpa using List.find?_some hq
      rw [hmapeq, List.mem_map] at he
      obtain ⟨x, _, hx⟩ := he
      by_cases hxo : x._id = oid
      · rw [if_pos hxo] at hx
        rw [hx]
      · rw [if_neg hxo] at hx
        rw [← hx] at heid
        exact absurd heid hxo
  refine ⟨oid, hid, hdoc, (validateEvent_title hv).1, (validateEvent_meta hv).1,
    (validateEvent_meta hv).2, hstart, hend, hmap, hmapeq, hfound, ?_, ?_, hprof⟩
  · intro e he hne
    rw [hmapeq, List.mem_map]
    exact ⟨e, he, by rw [if_neg hne]⟩
  · intro e he
    rw [hmapeq, List.mem_map] at he
    obtain ⟨x, hx, hxe⟩ := he
    by_cases hxo : x._id = oid
    · rw [if_pos hxo] at hxe
      exact Or.inl hxe.symm
    · rw [if_neg hxo] at hxe
      subst hxe
      exact Or.inr ⟨hx, hxo⟩

theorem updateEvent_frame_witness :
    bareBody.description = none ∧
    updateEvent isoRuntime demoIo twoEventStore standupId bareBody =
      (Response.json bareStandup, ⟨[alice, bob], [bareStandup, retro], []⟩) ∧
    ∃ oid, isoRuntime.castObjectId standupId = some oid ∧ bareStandup._id = oid ∧
      bareBody.title = some bareStandup.title ∧
      bareStandup.description = bareBody.description ∧
      bareBody.timezone = some bareStandup.timezone ∧
      bareBody.start.bind isoRuntime.castDate = some bareStandup.start ∧
      bareBody.end_.bind isoRuntime.castDate = some bareStandup.end_ ∧
      (sortIds bareBody.profiles).mapM isoRuntime.castObjectId = some bareStandup.assignedTo ∧
      ([bareStandup, retro] : List Event) =
        twoEventStore.events.map (fun e => if e._id = oid then bareStandup else e) ∧
      ([bareStandup, retro] : List Event).find? (fun e => e._id == oid) = some bareStandup ∧
      (∀ e ∈ twoEventStore.events, e._id ≠ oid → e ∈ ([bareStandup, retro] : List Event)) ∧
      (∀ e ∈ ([bareStandup, retro] : List Event),
        e = bareStandup ∨ (e ∈ twoEventStore.events ∧ e._id ≠ oid)) ∧
      ([alice, bob] : List Profile) = twoEventStore.profiles :=
  ⟨rfl, by decide,
    updateEvent_frame isoRuntime demoIo twoEventStore ⟨[alice, bob], [bareStandup, retro], []⟩
      standupId bareBody bareStandup (by decide)⟩

/-! ## The listing of audit records -/

/-- C21: for an id that casts to an ObjectId, the log route answers with exactly the
audit records whose `eventId` is that id, each as often as it is stored and none
of another event, ordered so that no record precedes one created later, and two
records of the event with the same creation time appear in the order in which
they were inserted. -/
theorem getEventLogs_listing (R : Runtime) (st : Store) (id : String) (oid : ObjectId)
    (hid : R.castObjectId id = some oid) :
    ∃ logs, getEventLogs R st id = LogsResponse.json logs ∧
      logs.Perm (st.logs.filter (fun l => l.eventId == oid)) ∧
      (∀ l, l ∈ logs ↔ l ∈ st.logs ∧ l.eventId = oid) ∧
      logs.Sorted (fun a b => b.createdAt ≤ a.createdAt) ∧
      ∀ a b, a.eventId = oid → b.eventId = oid → a.createdAt = b.createdAt →
        List.Sublist [a, b] st.logs → List.Sublist [a, b] logs := by
  have hperm : (sortNewestFirst (st.logs.filter (fun l => l.eventId == oid))).Perm
      (st.logs.filter (fun l => l.eventId == oid)) := List.perm_insertionSort _ _
  refine ⟨sortNewestFirst (st.logs.filter (fun l => l.eventId == oid)), ?_, hperm, ?_,
    List.sorted_insertionSort _ _, ?_⟩
  · simp [getEventLogs, hid]
  · intro l
    rw [hperm.mem_iff, List.mem_filter]
    simp
  · intro a b ha hb hab hsub
    have hf : List.Sublist [a, b] (st.logs.filter (fun l => l.eventId == oid)) := by
      have h := hsub.filter (fun l => l.eventId == oid)
      simpa [List.filter_cons, ha, hb] using h
    exact List.pair_sublist_insertionSort (le_of_eq hab.symm) hf

theorem getEventLogs_listing_witness :
    logStore.logs = [logFirst, logSecond, logOther, logLater] ∧
    logFirst.createdAt = logSecond.createdAt ∧
    getEventLogs isoRuntime logStore standupId =
      LogsResponse.json [logLater, logFirst, logSecond] ∧
    ∃ logs, getEventLogs isoRuntime logStore standupId = LogsResponse.json logs ∧
      logs.Perm (logStore.logs.filter (fun l => l.eventId == standupId)) ∧
      (∀ l, l ∈ logs ↔ l ∈ logStore.logs ∧ l.eventId = standupId) ∧
      logs.Sorted (fun a b => b.createdAt ≤ a.createdAt) ∧
      ∀ a b, a.eventId = standupId → b.eventId = standupId → a.createdAt = b.createdAt →
        List.Sublist [a, b] logStore.logs → List.Sublist [a, b] logs :=
  ⟨rfl, rfl, by decide,
    getEventLogs_listing isoRuntime logStore standupId standupId (by decide)⟩

/-! ## The audit log only grows -/

theorem createProfile_cases (io : Io) (st : Store) (body : ProfileBody) :
    (createProfile io st body).2 = st ∨
      ((∀ p ∈ st.profiles, p.name ≠ body.name) ∧
        (createProfile io st body).2 =
          { st with profiles :=
              st.profiles ++ [⟨io.newId, body.name, body.timezone.getD "UTC"⟩] }) := by
  unfold createProfile
  cases hf : st.profiles.find? (fun p => p.name == body.name) with
  | some p => left; rfl
  | none =>
    simp only
    split_ifs
    · left; rfl
    · left; rfl
    · right
      refine ⟨?_, rfl⟩
      intro p hp
      have := List.find?_eq_none.mp hf p hp
      simpa using this

/-- C22: whatever request of the API is handled in whatever state, the audit log
afterwards begins with the audit log before, record for record; it is either the
same log, or the request is an event update and the log has exactly one more
record at its end. -/
theorem audit_log_append_only (R : Runtime) (io : Io) (st : Store) (req : Request) :
    st.logs <+: (nextStore R io st req).logs ∧
      ((nextStore R io st req).logs = st.logs ∨
        ∃ id body record, req = Request.putEvent id body ∧
          (nextStore R io st req).logs = st.logs ++ [record]) := by
  have key : (nextStore R io st req).logs = st.logs ∨
      ∃ id body record, req = Request.putEvent id body ∧
        (nextStore R io st req).logs = st.logs ++ [record] := by
    cases req with
    | getProfiles => exact Or.inl rfl
    | postProfile body =>
      left
      show (createProfile io st body).2.logs = st.logs
      rcases createProfile_cases io st body with h | ⟨_, h⟩ <;> rw [h]
    | getEvents profileId => exact Or.inl rfl
    | postEvent body => exact Or.inl (createEvent_logs R io st body)
    | putEvent id body =>
      rcases updateEvent_logs_cases R io st id body with h | ⟨oid, oldEvent, _, _, _, h⟩
      · exact Or.inl h
      · exact Or.inr ⟨id, body, _, rfl, h⟩
    | getEventLogs id => exact Or.inl rfl
  refine ⟨?_, key⟩
  rcases key with h | ⟨_, _, record, _, h⟩
  · rw [h]
  · rw [h]
    exact List.prefix_append _ _

/-! ## Profile names -/

theorem nextStore_profiles (R : Runtime) (io : Io) (st : Store) (req : Request) :
    (nextStore R io st req).profiles = st.profiles ∨
      ∃ body, req = Request.postProfile body ∧ (∀ p ∈ st.profiles, p.name ≠ body.name) ∧
        (nextStore R io st req).profiles =
          st.profiles ++ [⟨io.newId, body.name, body.timezone.getD "UTC"⟩] := by
  cases req with
  | getProfiles => exact Or.inl rfl
  | postProfile body =>
    rcases createProfile_cases io st body with h | ⟨hn, h⟩
    · left
      show (createProfile io st body).2.profiles = st.profiles
      rw [h]
    · right
      refine ⟨body, rfl, hn, ?_⟩
      show (createProfile io st body).2.profiles = _
      rw [h]
  | getEvents profileId => exact Or.inl rfl
  | postEvent body =>
    left
    show (createEvent R io st body).2.profiles = st.profiles
    rcases createEvent_cases R io st body with h | ⟨_, _, _, h⟩ <;> rw [h]
  | putEvent id body =>
    left
    rcases updateEvent_store_cases R io st id body with h | ⟨_, _, _, _, _, _, _, _, h, _⟩
    · show (updateEvent R io st id body).2.profiles = st.profiles
      rw [h]
    · exact h
  | getEventLogs id => exact Or.inl rfl

/-- C24: creating a profile under the name of a stored profile is answered with
status 400 and the message 'Profile exists' and returns the store unchanged, in
every state; and in every state the API can reach from the empty store the names
of the stored profiles are pairwise distinct. -/
theorem profile_names_distinct (R : Runtime) (st : Store) (h : ApiReachable R st) :
    (st.profiles.map (fun p => p.name)).Nodup ∧
      ∀ (io : Io) (st' : Store) (body : ProfileBody),
        (∃ p ∈ st'.profiles, p.name = body.name) →
          createProfile io st' body = (ProfileResponse.message 400 "Profile exists", st') := by
  constructor
  · induction h with
    | init => simp
    | step io req _ ih =>
      rcases nextStore_profiles R io _ req with hp | ⟨body, _, hn, hp⟩
      · rw [hp]
        exact ih
      · rw [hp, List.map_append, List.map_singleton]
        rw [List.nodup_append]
        refine ⟨ih, List.nodup_singleton _, ?_⟩
        intro a ha hb
        rw [List.mem_singleton] at hb
        rw [List.mem_map] at ha
        obtain ⟨p, hp', hpa⟩ := ha
        exact hn p hp' (hpa.trans hb)
  · intro io st' body ⟨p, hp, hname⟩
    unfold createProfile
    have hsome : (st'.profiles.find? (fun q => q.name == body.name)).isSome := by
      rw [List.find?_isSome]
      exact ⟨p, hp, by simpa using hname⟩
    obtain ⟨q, hq⟩ := Option.isSome_iff_exists.mp hsome
    rw [hq]

theorem profile_names_distinct_witness :
    (createProfile demoIo ⟨[], [], []⟩ aliceBody).2.profiles =
      [⟨"64c000000000000000000002", "Alice", "UTC"⟩] ∧
    ((nextStore isoRuntime demoIo ⟨[], [], []⟩ (Request.postProfile aliceBody)).profiles.map
        (fun p => p.name)).Nodup ∧
      ∀ (io : Io) (st' : Store) (body : ProfileBody),
        (∃ p ∈ st'.profiles, p.name = body.name) →
          createProfile io st' body = (ProfileResponse.message 400 "Profile exists", st') :=
  ⟨by decide,
    profile_names_distinct isoRuntime _
      (ApiReachable.step demoIo (Request.postProfile aliceBody) ApiReachable.init)⟩

/-! ## Proposed dates that are no dates -/

/-- C23 (as the code has it): when the proposed start or end of an update of an
existing event is not a valid date-time, the comparison of the route is false, so
the route never answers with an error of its own; whenever the schema refuses
the proposed values on save (as it does when its Date cast refuses the start or
the end) or the write fails, the answer is the status 500 of the catch branch and
the store, audit log included, is unchanged. -/
theorem updateEvent_invalid_date (R : Runtime) (io : Io) (st : Store) (id : String)
    (body : EventBody) (oid : ObjectId) (oldEvent : PopulatedEvent)
    (hid : R.castObjectId id = some oid) (hfind : findByIdPopulated st oid = some oldEvent)
    (hbad : jsTime R body.start = none ∨ jsTime R body.end_ = none) :
    startNotBeforeEnd R body.start body.end_ = false ∧
      (∀ status msg, (updateEvent R io st id body).1 ≠ Response.error status msg) ∧
      ((validateEvent R oldEvent._id body.title body.description (sortIds body.profiles)
          body.timezone body.start body.end_ = none ∨ io.saveFails = true) →
        updateEvent R io st id body = (Response.serverError, st)) ∧
      ((body.start.bind R.castDate = none ∨ body.end_.bind R.castDate = none) →
        updateEvent R io st id body = (Response.serverError, st)) := by
  have hr : startNotBeforeEnd R body.start body.end_ = false := by
    unfold startNotBeforeEnd
    rcases hbad with h | h
    · rw [h]
    · rw [h]
      cases jsTime R body.start <;> rfl
  have hfail : (validateEvent R oldEvent._id body.title body.description
      (sortIds body.profiles) body.timezone body.start body.end_ = none ∨
        io.saveFails = true) → updateEvent R io st id body = (Response.serverError, st) := by
    intro hf
    rcases hf with hv | hs
    · simp [updateEvent, hid, hfind, hr, hv]
    · cases hv : validateEvent R oldEvent._id body.title body.description
          (sortIds body.profiles) body.timezone body.start body.end_ with
      | none => simp [updateEvent, hid, hfind, hr, hv]
      | some saved => simp [updateEvent, hid, hfind, hr, hv, hs]
  refine ⟨hr, ?_, hfail, ?_⟩
  · intro status msg
    cases hv : validateEvent R oldEvent._id body.title body.description
        (sortIds body.profiles) body.timezone body.start body.end_ with
    | none => rw [hfail (Or.inl hv)]; simp
    | some saved =>
      cases hs : io.saveFails with
      | true => rw [hfail (Or.inr hs)]; simp
      | false =>
        rw [updateEvent_of_saved R io st id body oid oldEvent saved hid hfind hr hv hs]
        split_ifs <;> simp
  · intro hcast
    apply hfail
    left
    cases hv : validateEvent R oldEvent._id body.title body.description
        (sortIds body.profiles) body.timezone body.start body.end_ with
    | none => rfl
    | some saved =>
      obtain ⟨h1, h2, _⟩ := validateEvent_fields hv
      rcases hcast with h | h
      · rw [h] at h1
        simp at h1
      · rw [h] at h2
        simp at h2

theorem updateEvent_invalid_date_witness :
    jsTime isoRuntime badDateBody.start = none ∧
    startNotBeforeEnd isoRuntime badDateBody.start badDateBody.end_ = false ∧
      (∀ status msg, (updateEvent isoRuntime demoIo demoStore standupId badDateBody).1 ≠
        Response.error status msg) ∧
      ((validateEvent isoRuntime standupLoaded._id badDateBody.title badDateBody.description
          (sortIds badDateBody.profiles) badDateBody.timezone badDateBody.start
          badDateBody.end_ = none ∨ demoIo.saveFails = true) →
        updateEvent isoRuntime demoIo demoStore standupId badDateBody =
          (Response.serverError, demoStore)) ∧
      ((badDateBody.start.bind isoRuntime.castDate = none ∨
          badDateBody.end_.bind isoRuntime.castDate = none) →
        updateEvent isoRuntime demoIo demoStore standupId badDateBody =
          (Response.serverError, demoStore)) :=
  ⟨by decide,
    updateEvent_invalid_date isoRuntime demoIo demoStore standupId badDateBody standupId
      standupLoaded (by decide) (by decide) (Or.inl (by decide))⟩

/-- C23, the claim as stated fails: the proposed start is no date-time, the validation
of the route lets the request pass, the diff is computed with a 'start' entry,
and the answer is the status 500 of the catch branch, raised by the save, not an
error of the validation. -/
theorem updateEvent_invalid_date_not_validated :
    jsTime isoRuntime badDateBody.start = none ∧
    startNotBeforeEnd isoRuntime badDateBody.start badDateBody.end_ = false ∧
    (computeChanges isoRuntime standupLoaded badDateBody).changes =
      [⟨"start", Mixed.date 1704117600000, Mixed.text "tomorrow"⟩] ∧
    updateEvent isoRuntime demoIo demoStore standupId badDateBody =
      (Response.serverError, demoStore) ∧
    ∀ status msg, updateEvent isoRuntime demoIo demoStore standupId badDateBody ≠
      (Response.error status msg, demoStore) := by
  refine ⟨by decide, by decide, by decide, by decide, ?_⟩
  intro status msg h
  have h' : updateEvent isoRuntime demoIo demoStore standupId badDateBody =
      (Response.serverError, demoStore) := by decide
  rw [h'] at h
  simp at h

/-! ## The check of the client form -/

/-- C30: for a new-event form whose start and end are the same date and time, the
submit handler shows no error and sends a create request whose start and end are
the same instant. -/
theorem handleSubmit_sends_equal_times :
    handleSubmit utcDayjs sameTimeForm =
      SubmitOutcome.post
        { profiles := [idA], timezone := some "UTC",
          start := some "2024-01-01T09:00:00.000Z", end_ := some "2024-01-01T09:00:00.000Z",
          title := some "Standup", description := some "" } ∧
    handleSubmit utcDayjs sameTimeForm ≠
      SubmitOutcome.notify "End time must be after start time" := by
  refine ⟨by decide, by decide⟩

/-! ## Stored references that resolve to no profile -/

/-- C8, the claim as stated fails: an event created with a single attendee id that no
profile has is updated to have no attendee; the membership changes, yet the diff
has no 'assignedTo' entry and no audit record is written. -/
theorem assignedTo_membership_change_unflagged :
    createEvent isoRuntime demoIo ⟨[alice, bob], [], []⟩ ghostCreateBody =
      (Response.json ghostEvent, ghostStore) ∧
    ghostEvent.assignedTo = [idC] ∧ clearBody.profiles = [] ∧
    ¬ (∀ x, x ∈ ghostEvent.assignedTo ↔ x ∈ clearBody.profiles) ∧
    findByIdPopulated ghostStore createdId = some ghostLoaded ∧
    entriesOf "assignedTo" (computeChanges isoRuntime ghostLoaded clearBody) = [] ∧
    updateEvent isoRuntime demoIo ghostStore createdId clearBody =
      (Response.json { ghostEvent with assignedTo := [] },
        ⟨[alice, bob], [{ ghostEvent with assignedTo := [] }], []⟩) := by
  refine ⟨by decide, rfl, rfl, ?_, by decide, by decide, by decide⟩
  intro h
  exact absurd ((h idC).mp (by decide)) (by decide)

/-- C9, the claim as stated fails: an event created with the ids of Alice and of no
profile is resubmitted with the two ids in the other order; the diff has an
'assignedTo' entry and an audit record is written. -/
theorem reorder_dangling_flagged :
    createEvent isoRuntime demoIo ⟨[alice, bob], [], []⟩ mixedCreateBody =
      (Response.json mixedEvent, mixedStore) ∧
    mixedEvent.assignedTo = [idA, idC] ∧ mixedReorderBody.profiles = [idC, idA] ∧
    mixedReorderBody.profiles.Perm mixedEvent.assignedTo ∧
    findByIdPopulated mixedStore createdId = some mixedLoaded ∧
    (computeChanges isoRuntime mixedLoaded mixedReorderBody).changes =
      [⟨"assignedTo", Mixed.ids [idA], Mixed.ids [idA, idC]⟩] ∧
    (updateEvent isoRuntime demoIo mixedStore createdId mixedReorderBody).2.logs =
      [⟨createdId, "Attendee list updated",
        [⟨"assignedTo", Mixed.ids [idA], Mixed.ids [idA, idC]⟩], 1704200000000⟩] := by
  refine ⟨by decide, rfl, rfl, List.Perm.swap _ _ _, by decide, by decide, by decide⟩

/-- C27, the claim as stated fails. For an event stored with the ids of Alice and of
no profile, the 'assignedTo' entry of an update has the id of Alice alone as old
value, not the stored ids. And for a start submitted as the milliseconds of the
stored start, which `new Date` does not read and the schema stores as the same
instant, the update records a 'start' entry although the stored start is the
same before and after. -/
theorem change_entry_old_value_not_stored :
    findByIdPopulated mixedStore createdId = some mixedLoaded ∧
    sortIds mixedEvent.assignedTo = [idA, idC] ∧
    (computeChanges isoRuntime mixedLoaded mixedAddBody).changes =
      [⟨"assignedTo", Mixed.ids [idA], Mixed.ids [idA, idB, idC]⟩] ∧
    standup.start = 1704117600000 ∧
    millisRuntime.dateParse "1704117600000" = none ∧
    millisRuntime.castDate "1704117600000" = some 1704117600000 ∧
    updateEvent millisRuntime demoIo demoStore standupId numericBody =
      (Response.json standup,
        ⟨[alice, bob], [standup],
          [⟨standupId, "Start time updated",
            [⟨"start", Mixed.date 1704117600000, Mixed.text "1704117600000"⟩],
            1704200000000⟩]⟩) := by
  refine ⟨by decide, by decide, by decide, rfl, by decide, by decide, by decide⟩

/-- C28, the claim as stated fails: an event stored with the ids of Alice and of no
profile is resubmitted with the same title, instants and id list and a new
description and timezone label; the diff has an 'assignedTo' entry and an audit
record is written. -/
theorem relabel_dangling_logged :
    findByIdPopulated mixedStore createdId = some mixedLoaded ∧
    mixedRelabelBody.title = some mixedEvent.title ∧
    jsTime isoRuntime mixedRelabelBody.start = some mixedEvent.start ∧
    jsTime isoRuntime mixedRelabelBody.end_ = some mixedEvent.end_ ∧
    mixedRelabelBody.profiles = mixedEvent.assignedTo ∧
    updateEvent isoRuntime demoIo mixedStore createdId mixedRelabelBody =
      (Response.json mixedRelabeled,
        ⟨[alice, bob], [mixedRelabeled],
          [⟨createdId, "Attendee list updated",
            [⟨"assignedTo", Mixed.ids [idA], Mixed.ids [idA, idC]⟩], 1704200000000⟩]⟩) := by
  refine ⟨by decide, rfl, by decide, by decide, rfl, by decide⟩

end EventDashboard
